import Mathlib

/-!
The cache-population handlers of `handlers.go` (evince).

A shallow embedding of `Service.ConfigureRoutes` and of the six resolvers
(`getValidatorList`, `getExistingDelegations`, `getZones`, `getAPR`,
`getTotalSupply`, `getCirculatingSupply`), followed by theorems about them.

Conventions of the embedding.

* A handler is a function from the environment (configuration, upstream node,
  external HTTP fetchers, codecs) and the cache to a `Result`: what the handler
  answers, the cache afterwards and the upstream calls it made, in order.
* The upstream node and the external fetchers are oracles.  The `i`-th call of
  one kind inside one resolution may answer differently from the `j`-th one, so
  every oracle takes the number of calls of its kind made before it.
* Go `int` is 64 bits wide, `uint64` and `time.Duration` (an `int64` count of
  nanoseconds) wrap as in Go.
* `sdkmath.Int` is a `big.Int` confined to a bit length of at most 256
  (`MaxBitLen`): `Add` and `Sub` panic with "Int overflow" beyond it and `Int64`
  panics with "Int64() out of bound" outside the `int64` range.
* A `float64` is its bit pattern.  The conversion, the division and the JSON
  encoding of a `float64` belong to the environment; where a payload has to be
  computed they are tied to the model of IEEE 754 and of `encoding/json` given
  below (`FloatConforms`).
* The cache is an exact store from keys to bytes.  Expiry, admission and
  eviction of the real cache are not part of the model; the cost and the
  time-to-live of every write are recorded in the entry.
-/

namespace Evince

/-! ## Machine integers and durations -/

/-- Conversion of an integer to Go `int64` (two's complement wrap-around). -/
def wrapInt64 (x : Int) : Int := (x + 2 ^ 63) % 2 ^ 64 - 2 ^ 63

/-- Go `int(x)` for `x : uint64` on a 64-bit platform. -/
def intOfUint64 (x : Nat) : Int := wrapInt64 (x % 2 ^ 64)

/-- Go `time.Duration`: a count of nanoseconds held in an `int64`. -/
abbrev Duration := Int

/-- The constant `time.Minute`. -/
def Minute : Duration := 60000000000

/-- The constant `time.Hour`. -/
def Hour : Duration := 3600000000000

/-- Product of two durations, `a * b` in Go: it wraps at 64 bits. -/
def Duration.mul (a b : Duration) : Duration := wrapInt64 (a * b)

/-- Go `time.Duration(n)` for an integer `n`. -/
def durationOf (n : Int) : Duration := wrapInt64 n

/-! ## sdkmath.Int -/

/-- The constant `MaxBitLen` of `cosmossdk.io/math`. -/
def MaxBitLen : Nat := 256

/-- Whether a big integer has a bit length of at most `MaxBitLen`. -/
def sdkInRange (x : Int) : Bool := decide (x.natAbs < 2 ^ MaxBitLen)

/-- The method `sdkmath.Int.Add`; `none` is the panic "Int overflow". -/
def sdkAdd (a b : Int) : Option Int :=
  if sdkInRange (a + b) then some (a + b) else none

/-- The method `sdkmath.Int.Sub`; `none` is the panic "Int overflow". -/
def sdkSub (a b : Int) : Option Int :=
  if sdkInRange (a - b) then some (a - b) else none

/-- The method `sdkmath.Int.Int64`; `none` is the panic "Int64() out of bound". -/
def sdkInt64 (a : Int) : Option Int :=
  if -(2 ^ 63) ≤ a ∧ a < 2 ^ 63 then some a else none

/-! ## Bytes, errors, cache -/

/-- Byte strings (`[]byte`). -/
abbrev Bytes := List UInt8

/-- The sentinel errors the handlers return. -/
inductive SvcError where
  | ErrRPCClientConnection
  | ErrABCIQuery
  | ErrUnmarshalResponse
  | ErrMarshalResponse
  | ErrUnableToGetAPR
  | ErrUnableToGetTotalSupply
  | ErrUnableToGetLockedTokens
  | ErrUnableToGetCommunityPool
  deriving DecidableEq, Repr

/-- What a handler does for the caller. -/
inductive Outcome where
  /-- Answer `ctx.JSONBlob(status, body)`. -/
  | jsonBlob (status : Nat) (body : Bytes)
  /-- Answer `return err` with one of the sentinel errors. -/
  | error (e : SvcError)
  /-- A run-time panic inside the handler. -/
  | panicked
  /-- The pagination loop was still running when the fuel ran out. -/
  | running
  deriving DecidableEq, Repr

/-- The constant `http.StatusOK`. -/
def StatusOK : Nat := 200

/-- One write `SetWithTTL(key, value, cost, ttl)`. -/
structure CacheItem where
  key : String
  value : Bytes
  cost : Int
  ttl : Duration
  deriving DecidableEq, Repr

/-- The cache: its writes, the latest first. -/
abbrev Cache := List CacheItem

/-- The method `Cache.Get`. -/
def Cache.Get (c : Cache) (key : String) : Option Bytes :=
  match c with
  | [] => none
  | it :: rest => if it.key = key then some it.value else Cache.Get rest key

/-- The method `Cache.SetWithTTL`. -/
def Cache.SetWithTTL (c : Cache) (key : String) (value : Bytes) (cost : Int)
    (ttl : Duration) : Cache :=
  { key := key, value := value, cost := cost, ttl := ttl } :: c

/-! ## Cache keys (`ConfigureRoutes`) -/

/-- The key `fmt.Sprintf("validatorList.%s", chainID)`. -/
def validatorListKey (chainID : String) : String :=
  "validatorList." ++ chainID

/-- The key `fmt.Sprintf("existingDelegations.%s.%s", chainID, address)`. -/
def existingDelegationsKey (chainID address : String) : String :=
  "existingDelegations." ++ chainID ++ "." ++ address

/-- The key of the route `/zones`. -/
def zonesKey : String := "zones"

/-- The key of the route `/apr`. -/
def aprKey : String := "apr"

/-- The key of the route `/total_supply`. -/
def totalSupplyKey : String := "total_supply"

/-- The key of the route `/circulating_supply`. -/
def circulatingSupplyKey : String := "circulating_supply"

/-! ## Messages of the staking query -/

/-- A staking `Validator` record; the handlers never look inside one. -/
structure Validator where
  bz : Bytes
  deriving DecidableEq, Repr

/-- The message `query.PageResponse`; `Total` is a `uint64`. -/
structure PageResponse where
  NextKey : Bytes
  Total : Nat
  deriving DecidableEq, Repr

/-- The message `stakingtypes.QueryValidatorsResponse`; `Pagination` is a pointer. -/
structure QueryValidatorsResponse where
  Validators : List Validator
  Pagination : Option PageResponse
  deriving DecidableEq, Repr

/-- The message `query.PageRequest`, of which only `Key` is ever set. -/
structure PageRequest where
  Key : Bytes
  deriving DecidableEq, Repr

/-- The message `stakingtypes.QueryValidatorsRequest`. -/
structure QueryValidatorsRequest where
  Status : String
  Pagination : Option PageRequest
  deriving DecidableEq, Repr

/-- One field occurrence inside an encoded `PageResponse`. -/
inductive PageField where
  | nextKey (k : Bytes)
  | total (n : Nat)
  deriving DecidableEq, Repr

/-- One field occurrence inside an encoded `QueryValidatorsResponse`. -/
inductive Field where
  | validators (v : Validator)
  | pagination (fs : List PageField)
  deriving DecidableEq, Repr

/-- The generated `PageResponse.Unmarshal`: it does not reset the receiver, every
field occurrence on the wire overwrites the field. -/
def PageResponse.Unmarshal (m : PageResponse) : List PageField → PageResponse
  | [] => m
  | PageField.nextKey k :: fs => PageResponse.Unmarshal { m with NextKey := k } fs
  | PageField.total n :: fs => PageResponse.Unmarshal { m with Total := n % 2 ^ 64 } fs

/-- The generated `QueryValidatorsResponse.Unmarshal`, which `ProtoCodec.Unmarshal`
calls on the receiver as it is: an occurrence of `validators` appends one record,
an occurrence of `pagination` allocates the sub-message when the pointer is nil
and unmarshals into it. -/
def QueryValidatorsResponse.Unmarshal (m : QueryValidatorsResponse) :
    List Field → QueryValidatorsResponse
  | [] => m
  | Field.validators v :: fs =>
      QueryValidatorsResponse.Unmarshal { m with Validators := m.Validators ++ [v] } fs
  | Field.pagination pfs :: fs =>
      let sub : PageResponse := m.Pagination.getD { NextKey := [], Total := 0 }
      QueryValidatorsResponse.Unmarshal
        { m with Pagination := some (PageResponse.Unmarshal sub pfs) } fs

/-- The message `stakingtypes.QueryDelegatorDelegationsResponse`, kept undecoded. -/
structure QueryDelegatorDelegationsResponse where
  bz : Bytes
  deriving DecidableEq, Repr

/-- The message `icstypes.QueryZonesInfoResponse`, kept undecoded. -/
structure QueryZonesInfoResponse where
  bz : Bytes
  deriving DecidableEq, Repr

/-- One per-chain record returned by `getAPRquery`, kept undecoded. -/
structure ChainAPR where
  bz : Bytes
  deriving DecidableEq, Repr

/-- The struct `APRResponse`. -/
structure APRResponse where
  Chains : List ChainAPR
  deriving DecidableEq, Repr

/-- A `float64`, by its bit pattern. -/
structure Float64 where
  bits : Nat
  deriving DecidableEq, Repr

/-- The constant `1_000_000` as a `float64`. -/
def million : Float64 := { bits := 0x412E848000000000 }

/-! ## Environment -/

/-- A request message handed to `ABCIQueryWithOptions`. -/
inductive Request where
  | validators (q : QueryValidatorsRequest)
  | delegatorDelegations (delegatorAddr : String)
  | zonesInfo
  deriving DecidableEq, Repr

/-- One call that leaves the process. -/
inductive Call where
  | NewRPCClient (host : String)
  | ABCIQuery (host : String) (path : String) (req : Request)
  | getAPRquery (url : String) (chain : String)
  | getTotalSupply (url : String)
  | getVestingAccountLocked (url : String) (address : String)
  | getCommunityPool (url : String)
  deriving DecidableEq, Repr

/-- The struct `Config`, as far as the handlers read it. -/
structure Config where
  QuickHost : String
  ChainHost : String
  APRURL : String
  APRCacheTime : Int
  SupplyCacheTime : Int
  LCDEndpoint : String
  Chains : List String

/-- Everything outside `handlers.go` that the handlers use. -/
structure Env where
  Config : Config
  /-- The package variable `VestingAccounts`. -/
  VestingAccounts : List String
  /-- The call `fmt.Sprintf(format, arg)` with one argument. -/
  Sprintf : String → String → String
  /-- Whether `NewRPCClient(host, 30*time.Second)` returns a client. -/
  NewRPCClient : String → Bool
  /-- The bytes `abciQuery.Response.Value` of query number `i` on the client for
  `host`, or `none` when `ABCIQueryWithOptions` returns an error. -/
  ABCIQuery : String → Nat → String → Request → Option Bytes
  /-- Decoding of an encoded `QueryValidatorsResponse` into its field occurrences. -/
  decodeValidators : Bytes → Option (List Field)
  /-- The call `marshaler.Unmarshal` on a fresh `QueryDelegatorDelegationsResponse`. -/
  UnmarshalDelegations : Bytes → Option QueryDelegatorDelegationsResponse
  /-- The call `marshaler.Unmarshal` on a fresh `QueryZonesInfoResponse`. -/
  UnmarshalZones : Bytes → Option QueryZonesInfoResponse
  /-- The call `codec.ProtoMarshalJSON(&queryResponse, nil)`. -/
  ProtoMarshalJSON : QueryValidatorsResponse → Option Bytes
  /-- The call `marshaler.MarshalJSON` on a delegations response. -/
  MarshalJSONDelegations : QueryDelegatorDelegationsResponse → Option Bytes
  /-- The call `marshaler.MarshalJSON` on a zones response. -/
  MarshalJSONZones : QueryZonesInfoResponse → Option Bytes
  /-- The call `json.Marshal(aprResp)`. -/
  jsonMarshalAPR : APRResponse → Option Bytes
  /-- The conversion `float64(x)` of an `int64`. -/
  float64OfInt64 : Int → Float64
  /-- The quotient `a / b` of two `float64`. -/
  float64Quo : Float64 → Float64 → Float64
  /-- The call `json.Marshal` on a `float64`. -/
  jsonMarshalFloat64 : Float64 → Option Bytes
  /-- The helper `getAPRquery(ctx, url, chain)`, call number `i` of a resolution. -/
  getAPRquery : Nat → String → String → Option ChainAPR
  /-- The helper `getTotalSupply(ctx, url)`. -/
  getTotalSupply : String → Option Int
  /-- The helper `getVestingAccountLocked(ctx, url, address)`, call number `i`. -/
  getVestingAccountLocked : Nat → String → String → Option Int
  /-- The helper `getCommunityPool(ctx, url)`. -/
  getCommunityPool : String → Option Int

/-- What one handler invocation leaves behind. -/
structure Result where
  outcome : Outcome
  cache : Cache
  calls : List Call
  deriving DecidableEq, Repr

/-! ## getValidatorList -/

/-- The method path of the validator query. -/
def validatorsPath : String := "/cosmos.staking.v1beta1.Query/Validators"

/-- The loop condition
`queryResponse.Pagination == nil || len(queryResponse.Validators) < int(queryResponse.Pagination.Total)`. -/
def loopCond (r : QueryValidatorsResponse) : Bool :=
  match r.Pagination with
  | none => true
  | some p => decide ((r.Validators.length : Int) < intOfUint64 p.Total)

/-- The request `vQuery` built at the top of the loop body. -/
def nextRequest (r : QueryValidatorsResponse) : QueryValidatorsRequest :=
  match r.Pagination with
  | some p =>
      if p.NextKey.length > 0 then { Status := "", Pagination := some { Key := p.NextKey } }
      else { Status := "", Pagination := none }
  | none => { Status := "", Pagination := none }

/-- The pagination loop of `getValidatorList`, started at iteration `i` with the
accumulated response `r`; `fuel` bounds the number of iterations.  It yields the
final `queryResponse` or the outcome with which the handler leaves early. -/
def validatorLoop (env : Env) (host : String) :
    Nat → Nat → QueryValidatorsResponse → List Call → Except Outcome QueryValidatorsResponse × List Call
  | 0, _, r, calls =>
      if loopCond r then (Except.error Outcome.running, calls) else (Except.ok r, calls)
  | fuel + 1, i, r, calls =>
      if loopCond r then
        let vQuery := nextRequest r
        let calls1 := calls ++ [Call.ABCIQuery host validatorsPath (Request.validators vQuery)]
        match env.ABCIQuery host i validatorsPath (Request.validators vQuery) with
        | none => (Except.error (Outcome.error SvcError.ErrABCIQuery), calls1)
        | some value =>
            match env.decodeValidators value with
            | none => (Except.error (Outcome.error SvcError.ErrUnmarshalResponse), calls1)
            | some fields =>
                validatorLoop env host fuel (i + 1) (QueryValidatorsResponse.Unmarshal r fields) calls1
      else (Except.ok r, calls)

/-- The method `Service.getValidatorList`. -/
def getValidatorList (env : Env) (fuel : Nat) (cache : Cache) (key chainID : String) : Result :=
  let host := env.Sprintf env.Config.ChainHost chainID
  let calls := [Call.NewRPCClient host]
  if env.NewRPCClient host then
    match validatorLoop env host fuel 0 { Validators := [], Pagination := none } calls with
    | (Except.error o, calls1) => { outcome := o, cache := cache, calls := calls1 }
    | (Except.ok queryResponse, calls1) =>
        match env.ProtoMarshalJSON queryResponse with
        | none =>
            { outcome := Outcome.error SvcError.ErrMarshalResponse, cache := cache, calls := calls1 }
        | some respData =>
            { outcome := Outcome.jsonBlob StatusOK respData,
              cache := Cache.SetWithTTL cache key respData 1 (1 * Hour),
              calls := calls1 }
  else
    { outcome := Outcome.error SvcError.ErrRPCClientConnection, cache := cache, calls := calls }

/-! ## getExistingDelegations and getZones -/

/-- The method path of the delegations query. -/
def delegationsPath : String := "/cosmos.staking.v1beta1.Query/DelegatorDelegations"

/-- The method path of the zones query. -/
def zonesPath : String := "/quicksilver.interchainstaking.v1.Query/ZoneInfos"

/-- The method `Service.getExistingDelegations`. -/
def getExistingDelegations (env : Env) (cache : Cache) (key chainID address : String) : Result :=
  let host := env.Sprintf env.Config.ChainHost chainID
  let calls := [Call.NewRPCClient host]
  if env.NewRPCClient host then
    let queryRequest := Request.delegatorDelegations address
    let calls1 := calls ++ [Call.ABCIQuery host delegationsPath queryRequest]
    match env.ABCIQuery host 0 delegationsPath queryRequest with
    | none => { outcome := Outcome.error SvcError.ErrABCIQuery, cache := cache, calls := calls1 }
    | some value =>
        match env.UnmarshalDelegations value with
        | none =>
            { outcome := Outcome.error SvcError.ErrUnmarshalResponse, cache := cache, calls := calls1 }
        | some queryResponse =>
            match env.MarshalJSONDelegations queryResponse with
            | none =>
                { outcome := Outcome.error SvcError.ErrMarshalResponse, cache := cache,
                  calls := calls1 }
            | some respData =>
                { outcome := Outcome.jsonBlob StatusOK respData,
                  cache := Cache.SetWithTTL cache key respData 1 (2 * Minute),
                  calls := calls1 }
  else
    { outcome := Outcome.error SvcError.ErrRPCClientConnection, cache := cache, calls := calls }

/-- The method `Service.getZones`. -/
def getZones (env : Env) (cache : Cache) (key : String) : Result :=
  let host := env.Config.QuickHost
  let calls := [Call.NewRPCClient host]
  if env.NewRPCClient host then
    let queryRequest := Request.zonesInfo
    let calls1 := calls ++ [Call.ABCIQuery host zonesPath queryRequest]
    match env.ABCIQuery host 0 zonesPath queryRequest with
    | none => { outcome := Outcome.error SvcError.ErrABCIQuery, cache := cache, calls := calls1 }
    | some value =>
        match env.UnmarshalZones value with
        | none =>
            { outcome := Outcome.error SvcError.ErrUnmarshalResponse, cache := cache, calls := calls1 }
        | some queryResponse =>
            match env.MarshalJSONZones queryResponse with
            | none =>
                { outcome := Outcome.error SvcError.ErrMarshalResponse, cache := cache,
                  calls := calls1 }
            | some respData =>
                { outcome := Outcome.jsonBlob StatusOK respData,
                  cache := Cache.SetWithTTL cache key respData 1 (1 * Minute),
                  calls := calls1 }
  else
    { outcome := Outcome.error SvcError.ErrRPCClientConnection, cache := cache, calls := calls }

/-! ## getAPR -/

/-- The loop `for _, chain := range chains` of `getAPR`, entered at fetch number
`i` with the response `aprResp` built so far; `none` is the early return. -/
def aprLoop (env : Env) :
    List String → Nat → APRResponse → List Call → Option APRResponse × List Call
  | [], _, aprResp, calls => (some aprResp, calls)
  | chain :: rest, i, aprResp, calls =>
      let url := env.Config.APRURL ++ "/"
      let calls1 := calls ++ [Call.getAPRquery url chain]
      match env.getAPRquery i url chain with
      | none => (none, calls1)
      | some chainAPR => aprLoop env rest (i + 1) { Chains := aprResp.Chains ++ [chainAPR] } calls1

/-- The method `Service.getAPR`. -/
def getAPR (env : Env) (cache : Cache) (key : String) : Result :=
  match aprLoop env env.Config.Chains 0 { Chains := [] } [] with
  | (none, calls) =>
      { outcome := Outcome.error SvcError.ErrUnableToGetAPR, cache := cache, calls := calls }
  | (some aprResp, calls) =>
      match env.jsonMarshalAPR aprResp with
      | none => { outcome := Outcome.error SvcError.ErrMarshalResponse, cache := cache, calls := calls }
      | some respData =>
          { outcome := Outcome.jsonBlob StatusOK respData,
            cache := Cache.SetWithTTL cache key respData 1
              (Duration.mul (durationOf env.Config.APRCacheTime) Minute),
            calls := calls }

/-! ## getTotalSupply and getCirculatingSupply -/

/-- The URL of the bank supply endpoint. -/
def supplyURL (env : Env) : String := env.Config.LCDEndpoint ++ "/cosmos/bank/v1beta1/supply"

/-- The URL prefix of the account endpoint. -/
def accountsURL (env : Env) : String := env.Config.LCDEndpoint ++ "/cosmos/auth/v1beta1/accounts/"

/-- The URL of the community pool endpoint. -/
def communityPoolURL (env : Env) : String :=
  env.Config.LCDEndpoint ++ "/cosmos/distribution/v1beta1/community_pool"

/-- The expression `json.Marshal(float64(x) / 1_000_000)` for an `int64` value `x`. -/
def marshalScaled (env : Env) (x : Int) : Option Bytes :=
  env.jsonMarshalFloat64 (env.float64Quo (env.float64OfInt64 x) million)

/-- The method `Service.getTotalSupply`. -/
def getTotalSupply (env : Env) (cache : Cache) (key : String) : Result :=
  let calls := [Call.getTotalSupply (supplyURL env)]
  match env.getTotalSupply (supplyURL env) with
  | none =>
      { outcome := Outcome.error SvcError.ErrUnableToGetTotalSupply, cache := cache, calls := calls }
  | some totalSupply =>
      match sdkInt64 totalSupply with
      | none => { outcome := Outcome.panicked, cache := cache, calls := calls }
      | some x =>
          match marshalScaled env x with
          | none =>
              { outcome := Outcome.error SvcError.ErrMarshalResponse, cache := cache, calls := calls }
          | some respData =>
              { outcome := Outcome.jsonBlob StatusOK respData,
                cache := Cache.SetWithTTL cache key respData 1
                  (Duration.mul (durationOf env.Config.SupplyCacheTime) Hour),
                calls := calls }

/-- The loop `for _, address := range VestingAccounts` of `getCirculatingSupply`,
entered at fetch number `i` with the running sum `totalLockedTokens`. -/
def lockedLoop (env : Env) :
    List String → Nat → Int → List Call → Except Outcome Int × List Call
  | [], _, totalLockedTokens, calls => (Except.ok totalLockedTokens, calls)
  | address :: rest, i, totalLockedTokens, calls =>
      let calls1 := calls ++ [Call.getVestingAccountLocked (accountsURL env) address]
      match env.getVestingAccountLocked i (accountsURL env) address with
      | none => (Except.error (Outcome.error SvcError.ErrUnableToGetLockedTokens), calls1)
      | some lockedTokensForAddress =>
          match sdkAdd totalLockedTokens lockedTokensForAddress with
          | none => (Except.error Outcome.panicked, calls1)
          | some sum => lockedLoop env rest (i + 1) sum calls1

/-- The expression
`totalSupply.Sub(totalLockedTokens).Sub(communityPoolBalance).Sub(sdkmath.NewInt(500_000_000_000))`
followed by `.Int64()`; `none` is a panic. -/
def circulatingInt64 (totalSupply totalLockedTokens communityPoolBalance : Int) : Option Int :=
  match sdkSub totalSupply totalLockedTokens with
  | none => none
  | some a =>
      match sdkSub a communityPoolBalance with
      | none => none
      | some b =>
          match sdkSub b 500000000000 with
          | none => none
          | some totalCirculatingSupply => sdkInt64 totalCirculatingSupply

/-- The method `Service.getCirculatingSupply`. -/
def getCirculatingSupply (env : Env) (cache : Cache) (key : String) : Result :=
  match lockedLoop env env.VestingAccounts 0 0 [] with
  | (Except.error o, calls) => { outcome := o, cache := cache, calls := calls }
  | (Except.ok totalLockedTokens, calls) =>
      let calls1 := calls ++ [Call.getTotalSupply (supplyURL env)]
      match env.getTotalSupply (supplyURL env) with
      | none =>
          { outcome := Outcome.error SvcError.ErrUnableToGetTotalSupply, cache := cache,
            calls := calls1 }
      | some totalSupply =>
          let calls2 := calls1 ++ [Call.getCommunityPool (communityPoolURL env)]
          match env.getCommunityPool (communityPoolURL env) with
          | none =>
              { outcome := Outcome.error SvcError.ErrUnableToGetCommunityPool, cache := cache,
                calls := calls2 }
          | some communityPoolBalance =>
              match circulatingInt64 totalSupply totalLockedTokens communityPoolBalance with
              | none => { outcome := Outcome.panicked, cache := cache, calls := calls2 }
              | some CirculatingSupplyResponse =>
                  match marshalScaled env CirculatingSupplyResponse with
                  | none =>
                      { outcome := Outcome.error SvcError.ErrMarshalResponse, cache := cache,
                        calls := calls2 }
                  | some respData =>
                      { outcome := Outcome.jsonBlob StatusOK respData,
                        cache := Cache.SetWithTTL cache key respData 1
                          (Duration.mul (durationOf env.Config.SupplyCacheTime) Hour),
                        calls := calls2 }

/-! ## ConfigureRoutes -/

/-- The six resource routes with their path parameters. -/
inductive Route where
  | validatorList (chainID : String)
  | existingDelegations (chainID address : String)
  | zones
  | apr
  | total_supply
  | circulating_supply
  deriving DecidableEq, Repr

/-- The cache key a route handler builds. -/
def Route.key : Route → String
  | Route.validatorList chainID => validatorListKey chainID
  | Route.existingDelegations chainID address => existingDelegationsKey chainID address
  | Route.zones => zonesKey
  | Route.apr => aprKey
  | Route.total_supply => totalSupplyKey
  | Route.circulating_supply => circulatingSupplyKey

/-- The resolver a route handler calls on a miss, with the key it passes. -/
def Route.resolve (env : Env) (fuel : Nat) (cache : Cache) (key : String) : Route → Result
  | Route.validatorList chainID => getValidatorList env fuel cache key chainID
  | Route.existingDelegations chainID address => getExistingDelegations env cache key chainID address
  | Route.zones => getZones env cache key
  | Route.apr => getAPR env cache key
  | Route.total_supply => getTotalSupply env cache key
  | Route.circulating_supply => getCirculatingSupply env cache key

/-- The handlers registered by `Service.ConfigureRoutes`: build the key, read the
cache, answer the cached bytes on a hit and call the resolver on a miss. -/
def ConfigureRoutes (env : Env) (fuel : Nat) (cache : Cache) (route : Route) : Result :=
  let key := Route.key route
  match Cache.Get cache key with
  | none => Route.resolve env fuel cache key route
  | some data => { outcome := Outcome.jsonBlob StatusOK data, cache := cache, calls := [] }

/-! ## IEEE 754 binary64 and the JSON encoding of a `float64`

A model of the three steps of `json.Marshal(float64(x) / 1_000_000)` on bit
patterns: the conversion of an integer, the quotient of two finite values, both
rounded to nearest with ties to even, and the encoding of `encoding/json`, which
prints the shortest decimal that parses back to the same value, in the format
`'f'` from `1e-6` up to `1e21` and in the format `'e'` elsewhere. -/

/-- Number of binary digits of a natural number, with `fuel` an upper bound. -/
def bitLenAux : Nat → Nat → Nat
  | 0, _ => 0
  | fuel + 1, n => if n = 0 then 0 else bitLenAux fuel (n / 2) + 1

/-- Number of binary digits of a natural number. -/
def bitLen (n : Nat) : Nat := bitLenAux n n

/-- The integer part of the binary logarithm of `num / den`, both positive. -/
def floorLog2 (num den : Nat) : Int :=
  let e0 : Int := (bitLen num : Int) - (bitLen den : Int)
  let ge : Bool :=
    if 0 ≤ e0 then decide (den * 2 ^ e0.toNat ≤ num) else decide (den ≤ num * 2 ^ (-e0).toNat)
  if ge then e0 else e0 - 1

/-- The `float64` nearest to `num / den` (ties to even), with the given sign:
normal, subnormal, zero or infinite. -/
def roundBits (neg : Bool) (num den : Nat) : Float64 :=
  let sign : Nat := if neg then 2 ^ 63 else 0
  if num = 0 ∨ den = 0 then { bits := sign }
  else
    let e : Int := max (floorLog2 num den) (-1022)
    let s : Int := 52 - e
    let n1 : Nat := if 0 ≤ s then num * 2 ^ s.toNat else num
    let d1 : Nat := if 0 ≤ s then den else den * 2 ^ (-s).toNat
    let q0 : Nat := n1 / d1
    let r : Nat := n1 % d1
    let q1 : Nat := if d1 < 2 * r ∨ (2 * r = d1 ∧ q0 % 2 = 1) then q0 + 1 else q0
    let q : Nat := if q1 = 2 ^ 53 then 2 ^ 52 else q1
    let e1 : Int := if q1 = 2 ^ 53 then e + 1 else e
    if q < 2 ^ 52 then { bits := sign + q }
    else if 2047 ≤ e1 + 1023 then { bits := sign + 2047 * 2 ^ 52 }
    else { bits := sign + (e1 + 1023).toNat * 2 ^ 52 + (q - 2 ^ 52) }

/-- Sign, significand and binary exponent of a finite `float64`: its value is
the significand times two to the exponent.  `none` for infinities and NaN. -/
def Float64.decode (f : Float64) : Option (Bool × Nat × Int) :=
  let b : Nat := f.bits % 2 ^ 64
  let neg : Bool := decide (b / 2 ^ 63 = 1)
  let ex : Nat := (b / 2 ^ 52) % 2048
  let frac : Nat := b % 2 ^ 52
  if ex = 2047 then none
  else if ex = 0 then some (neg, frac, -1074)
  else some (neg, frac + 2 ^ 52, (ex : Int) - 1075)

/-- A NaN, which stands for the result of an operation on non-finite operands
and of a division by zero. -/
def nonFinite : Float64 := { bits := 0x7FF8000000000001 }

/-- The conversion `float64(x)` of an integer. -/
def f64OfInt64 (x : Int) : Float64 := roundBits (decide (x < 0)) x.natAbs 1

/-- The quotient `a / b` of two finite `float64` with `b` not zero. -/
def f64Quo (a b : Float64) : Float64 :=
  match a.decode, b.decode with
  | some (sa, ma, ea), some (sb, mb, eb) =>
      if mb = 0 then nonFinite
      else
        let sh : Int := ea - eb
        roundBits (sa != sb) (if 0 ≤ sh then ma * 2 ^ sh.toNat else ma)
          (if 0 ≤ sh then mb else mb * 2 ^ (-sh).toNat)
  | _, _ => nonFinite

/-- The decimal digits of a natural number, the most significant first; `fuel`
bounds their number. -/
def digitsAux : Nat → Nat → List Nat → List Nat
  | 0, _, acc => acc
  | fuel + 1, n, acc => if n < 10 then n :: acc else digitsAux fuel (n / 10) (n % 10 :: acc)

/-- The decimal digits of a natural number, the most significant first. -/
def digits (n : Nat) : List Nat := digitsAux 400 n []

/-- The least `t` from `t0` on with `den ≤ num * 10 ^ t`, searched with `fuel`. -/
def leadingZeros : Nat → Nat → Nat → Nat → Nat
  | 0, _, _, t => t
  | fuel + 1, num, den, t => if den ≤ num * 10 ^ t then t else leadingZeros fuel num den (t + 1)

/-- The decimal exponent `k` of the positive `num / den`:
`10 ^ (k - 1) ≤ num / den < 10 ^ k`. -/
def decimalExponent (num den : Nat) : Int :=
  if den ≤ num then ((digits (num / den)).length : Int)
  else 1 - (leadingZeros 400 num den 1 : Int)

/-- Remove the zeros at the end of a list of digits. -/
def stripZeros (ds : List Nat) : List Nat :=
  (ds.reverse.dropWhile (fun d => d = 0)).reverse

/-- The shortest decimal that rounds to the `float64` nearest to `num / den`
(positive), searched from `n` significant digits on: its digits and the position
of its decimal point.  With `n` digits the two decimals next to the value are
tried; when both round back, the nearer one is taken, the even one on a tie. -/
def shortestFrom (num den : Nat) (k : Int) : Nat → Nat → List Nat × Int
  | 0, _ => (digits num, k)
  | fuel + 1, n =>
      let sh : Int := (n : Int) - k
      let n1 : Nat := if 0 ≤ sh then num * 10 ^ sh.toNat else num
      let d1 : Nat := if 0 ≤ sh then den else den * 10 ^ (-sh).toNat
      let lo : Nat := n1 / d1
      let r : Nat := n1 % d1
      let hi : Nat := lo + 1
      let target := roundBits false num den
      let back (c : Nat) : Bool :=
        if 0 ≤ sh then decide (roundBits false c (10 ^ sh.toNat) = target)
        else decide (roundBits false (c * 10 ^ (-sh).toNat) 1 = target)
      let okLo : Bool := back lo && decide (0 < lo)
      let okHi : Bool := back hi
      let up : Bool := decide (d1 < 2 * r) || (decide (2 * r = d1) && decide (lo % 2 = 1))
      if r = 0 then (stripZeros (digits lo), k - (n : Int) + ((digits lo).length : Int))
      else if okLo && okHi then
        let c := if up then hi else lo
        (stripZeros (digits c), k - (n : Int) + ((digits c).length : Int))
      else if okLo then (stripZeros (digits lo), k - (n : Int) + ((digits lo).length : Int))
      else if okHi then (stripZeros (digits hi), k - (n : Int) + ((digits hi).length : Int))
      else shortestFrom num den k fuel (n + 1)

/-- The shortest decimal of a positive finite value `mant * 2 ^ exp`: its digits
and the position of its decimal point (the value is `0.d₁d₂… * 10 ^ dp`). -/
def shortest (mant : Nat) (exp : Int) : List Nat × Int :=
  let num : Nat := if 0 ≤ exp then mant * 2 ^ exp.toNat else mant
  let den : Nat := if 0 ≤ exp then 1 else 2 ^ (-exp).toNat
  shortestFrom num den (decimalExponent num den) 17 1

/-- The ASCII codes of a list of decimal digits. -/
def digitBytes (ds : List Nat) : Bytes := ds.map (fun d => UInt8.ofNat (48 + d))

/-- The format `'f'` of `strconv` with the shortest digits: the integer part,
then, if digits are left, a point and the fraction. -/
def formatF (ds : List Nat) (dp : Int) : Bytes :=
  let nd : Int := ds.length
  let intPart : Bytes :=
    if 0 < dp then digitBytes (ds.take dp.toNat ++ List.replicate (dp - nd).toNat 0) else [48]
  let frac : Bytes :=
    if dp < nd then
      46 :: digitBytes (List.replicate (-dp).toNat 0 ++ ds.drop dp.toNat)
    else []
  intPart ++ frac

/-- The format `'e'` of `strconv` with the shortest digits, after the clean-up of
`encoding/json`, which turns `e-09` into `e-9`. -/
def formatE (ds : List Nat) (dp : Int) : Bytes :=
  let ex : Int := dp - 1
  let first : Bytes := digitBytes (ds.take 1)
  let rest : Bytes := if 1 < ds.length then 46 :: digitBytes (ds.drop 1) else []
  let exDigits : List Nat := digits ex.natAbs
  let exBytes : Bytes :=
    if ex < 0 then 45 :: digitBytes exDigits
    else 43 :: digitBytes (if exDigits.length < 2 then 0 :: exDigits else exDigits)
  first ++ rest ++ [101] ++ exBytes

/-- The call `json.Marshal` on a `float64`: an error for infinities and NaN,
otherwise the shortest decimal, in the format `'e'` when the magnitude is not
zero and below `1e-6` or at least `1e21`, in the format `'f'` otherwise. -/
def f64JSON (f : Float64) : Option Bytes :=
  match f.decode with
  | none => none
  | some (neg, mant, exp) =>
      let sign : Bytes := if neg then [45] else []
      if mant = 0 then some (sign ++ [48])
      else
        let small : Bool :=
          match (roundBits false 1 1000000).decode with
          | some (_, m6, e6) =>
              -- mant * 2 ^ exp < m6 * 2 ^ e6
              if exp ≤ e6 then decide (mant < m6 * 2 ^ (e6 - exp).toNat)
              else decide (mant * 2 ^ (exp - e6).toNat < m6)
          | none => false
        let large : Bool :=
          if 0 ≤ exp then decide (10 ^ 21 ≤ mant * 2 ^ exp.toNat)
          else decide (10 ^ 21 * 2 ^ (-exp).toNat ≤ mant)
        let sd := shortest mant exp
        if small || large then some (sign ++ formatE sd.1 sd.2)
        else some (sign ++ formatF sd.1 sd.2)

/-- The model of `json.Marshal(float64(x) / 1_000_000)`. -/
def scaledJSON (x : Int) : Option Bytes := f64JSON (f64Quo (f64OfInt64 x) million)

/-! ## Vocabulary of the statements -/

/-- Whether the handler answered the caller with a body. -/
def Outcome.isResponse : Outcome → Bool
  | Outcome.jsonBlob _ _ => true
  | _ => false

/-- One page as an upstream node serves it: its validator records, its
continuation cursor (empty when there is none) and the total it reports. -/
structure Page where
  validators : List Validator
  nextKey : Bytes
  total : Nat
  deriving DecidableEq, Repr

/-- The proto3 encoding of the response that carries a page: the records in
order, then the pagination sub-message, in which zero values are left out. -/
def Page.wire (p : Page) : List Field :=
  p.validators.map Field.validators ++
    [Field.pagination
      ((if p.nextKey.length > 0 then [PageField.nextKey p.nextKey] else []) ++
        (if p.total = 0 then [] else [PageField.total p.total]))]

/-- The request without a cursor. -/
def firstRequest : QueryValidatorsRequest := { Status := "", Pagination := none }

/-- The request that carries the cursor of the page `p`. -/
def cursorRequest (p : Page) : QueryValidatorsRequest :=
  { Status := "", Pagination := some { Key := p.nextKey } }

/-- The node at `host` serves the pages in order: query number `i` with the
request `req` is answered with the first page, and query number `i + 1` with the
cursor of that page is answered with the next one, and so on. -/
def servesPages (env : Env) (host : String) : Nat → QueryValidatorsRequest → List Page → Prop
  | _, _, [] => True
  | i, req, p :: rest =>
      (env.ABCIQuery host i validatorsPath (Request.validators req)).bind env.decodeValidators
          = some p.wire ∧
        servesPages env host (i + 1) (cursorRequest p) rest

/-- The queries that fetch the pages in order, the first one with the request `req`. -/
def expectedQueries (host : String) : QueryValidatorsRequest → List Page → List Call
  | _, [] => []
  | req, p :: rest =>
      Call.ABCIQuery host validatorsPath (Request.validators req) ::
        expectedQueries host (cursorRequest p) rest

/-- All validator records of the pages, in the order the upstream serves them. -/
def allValidators (pages : List Page) : List Validator :=
  (pages.map Page.validators).flatten

/-- The response accumulated from `r` by unmarshalling the pages one after another. -/
def accumulate (r : QueryValidatorsResponse) (pages : List Page) : QueryValidatorsResponse :=
  pages.foldl (fun acc p => QueryValidatorsResponse.Unmarshal acc p.wire) r

/-- The empty response the handler starts from. -/
def emptyResponse : QueryValidatorsResponse := { Validators := [], Pagination := none }

/-- Fetch number `i`, `i + 1`, ... of `getVestingAccountLocked` succeed with the
given amounts, one per address. -/
def servesLocked (env : Env) : Nat → List String → List Int → Prop
  | _, [], [] => True
  | i, address :: rest, x :: xs =>
      env.getVestingAccountLocked i (accountsURL env) address = some x ∧
        servesLocked env (i + 1) rest xs
  | _, _, _ => False

/-- Every running sum of the amounts, started from `acc`, is in the range of
`sdkmath.Int`. -/
def sumsInRange : Int → List Int → Prop
  | _, [] => True
  | acc, x :: xs => sdkInRange (acc + x) = true ∧ sumsInRange (acc + x) xs

/-- Fetch number `i`, `i + 1`, ... of `getAPRquery` succeed with the given
records, one per chain. -/
def servesAPR (env : Env) : Nat → List String → List ChainAPR → Prop
  | _, [], [] => True
  | i, chain :: rest, r :: rs =>
      env.getAPRquery i (env.Config.APRURL ++ "/") chain = some r ∧
        servesAPR env (i + 1) rest rs
  | _, _, _ => False

/-- The calls `getAPRquery` for the chains in order. -/
def aprCalls (env : Env) (chains : List String) : List Call :=
  chains.map (fun chain => Call.getAPRquery (env.Config.APRURL ++ "/") chain)

/-- The time-to-live table of the specification, in nanoseconds: one hour, two
minutes, one minute, `APRCacheTime` minutes and `SupplyCacheTime` hours. -/
def policyTTL (cfg : Config) : Route → Int
  | Route.validatorList _ => 3600000000000
  | Route.existingDelegations _ _ => 120000000000
  | Route.zones => 60000000000
  | Route.apr => cfg.APRCacheTime * 60000000000
  | Route.total_supply => cfg.SupplyCacheTime * 3600000000000
  | Route.circulating_supply => cfg.SupplyCacheTime * 3600000000000

/-- The time-to-live a resolver passes to `SetWithTTL`, as the code computes it. -/
def resolverTTL (cfg : Config) : Route → Duration
  | Route.validatorList _ => 1 * Hour
  | Route.existingDelegations _ _ => 2 * Minute
  | Route.zones => 1 * Minute
  | Route.apr => Duration.mul (durationOf cfg.APRCacheTime) Minute
  | Route.total_supply => Duration.mul (durationOf cfg.SupplyCacheTime) Hour
  | Route.circulating_supply => Duration.mul (durationOf cfg.SupplyCacheTime) Hour

/-- Whether an integer is an `int64`. -/
def fitsInt64 (x : Int) : Prop := -9223372036854775808 ≤ x ∧ x < 9223372036854775808

instance (x : Int) : Decidable (fitsInt64 x) := by
  unfold fitsInt64
  infer_instance

/-- The `float64` operations of the environment are those of IEEE 754 and of
`encoding/json` on the values the supply handlers compute: the conversion of an
`int64`, its quotient by `1_000_000` and the encoding of this quotient. -/
def FloatConforms (env : Env) : Prop :=
  ∀ x : Int, fitsInt64 x →
    env.float64OfInt64 x = f64OfInt64 x ∧
      env.float64Quo (f64OfInt64 x) million = f64Quo (f64OfInt64 x) million ∧
      env.jsonMarshalFloat64 (f64Quo (f64OfInt64 x) million) =
        f64JSON (f64Quo (f64OfInt64 x) million)

/-- The handler result `r` is the returned error `e`, with the cache left as it was. -/
def failsWith (r : Result) (cache : Cache) (e : SvcError) : Prop :=
  r.outcome = Outcome.error e ∧ r.cache = cache

/-- From the state `r`, the loop condition holds and query number `i`, `i + 1`,
... of the pagination loop are answered with the given encoded responses, each
request being the one the loop builds from the state accumulated before it. -/
def servesFields (env : Env) (host : String) :
    Nat → QueryValidatorsResponse → List (List Field) → Prop
  | _, _, [] => True
  | i, r, w :: ws =>
      loopCond r = true ∧
        (env.ABCIQuery host i validatorsPath (Request.validators (nextRequest r))).bind
            env.decodeValidators = some w ∧
        servesFields env host (i + 1) (QueryValidatorsResponse.Unmarshal r w) ws

/-- The state accumulated from `r` by unmarshalling the encoded responses in order. -/
def unmarshalAll (r : QueryValidatorsResponse) (ws : List (List Field)) :
    QueryValidatorsResponse :=
  ws.foldl QueryValidatorsResponse.Unmarshal r

/-- The queries the pagination loop issues from the state `r` while it is
answered with the given encoded responses. -/
def queriesFrom (host : String) : QueryValidatorsResponse → List (List Field) → List Call
  | _, [] => []
  | r, w :: ws =>
      Call.ABCIQuery host validatorsPath (Request.validators (nextRequest r)) ::
        queriesFrom host (QueryValidatorsResponse.Unmarshal r w) ws

/-! ## A mocked upstream -/

/-- A configuration for the mocked upstream. -/
def mockConfig : Config :=
  { QuickHost := "quick.rpc", ChainHost := "rpc.", APRURL := "http://apr",
    APRCacheTime := 15, SupplyCacheTime := 3, LCDEndpoint := "http://lcd",
    Chains := ["A", "B", "C"] }

/-- The bytes of a string of ASCII characters. -/
def ascii (s : String) : Bytes := s.data.map (fun c => UInt8.ofNat c.toNat)

/-- A mocked upstream.  The node serves the given encoded pages: a validator
query without a cursor is answered with page 0 and a query with the one-byte
cursor `k` with page `k`.  The ledger reports the given total supply, locked
amounts (by fetch number) and community pool balance.  The `float64`
operations are those of IEEE 754 and `encoding/json`. -/
def mockEnv (pages : List (List Field)) (supply : Option Int) (locked : List (Option Int))
    (pool : Option Int) (apr : List (Option ChainAPR)) : Env where
  Config := mockConfig
  VestingAccounts := ["quick1aaa", "quick1bbb"]
  Sprintf := fun format arg => format ++ arg
  NewRPCClient := fun host => decide (host ≠ "rpc.down")
  ABCIQuery := fun _ _ _ req =>
    match req with
    | Request.validators { Status := _, Pagination := none } => some [0]
    | Request.validators { Status := _, Pagination := some { Key := key } } => some key
    | Request.delegatorDelegations delegatorAddr => some (ascii delegatorAddr)
    | Request.zonesInfo => some [1]
  decodeValidators := fun value =>
    match value with
    | [b] => pages[b.toNat]?
    | _ => none
  UnmarshalDelegations := fun value => some { bz := value }
  UnmarshalZones := fun value => some { bz := value }
  ProtoMarshalJSON := fun r => some ((r.Validators.map Validator.bz).flatten)
  MarshalJSONDelegations := fun r => some r.bz
  MarshalJSONZones := fun r => some r.bz
  jsonMarshalAPR := fun r => some ((r.Chains.map ChainAPR.bz).flatten)
  float64OfInt64 := f64OfInt64
  float64Quo := f64Quo
  jsonMarshalFloat64 := f64JSON
  getAPRquery := fun i _ _ => (apr[i]?).join
  getTotalSupply := fun _ => supply
  getVestingAccountLocked := fun i _ _ => (locked[i]?).join
  getCommunityPool := fun _ => pool

/-- Three validator records. -/
def val1 : Validator := { bz := [11] }

/-- The second record. -/
def val2 : Validator := { bz := [22] }

/-- The third record. -/
def val3 : Validator := { bz := [33] }

/-- Three validators on two pages, the first with the cursor `[1]`. -/
def twoPages : List Page :=
  [{ validators := [val1, val2], nextKey := [1], total := 3 },
   { validators := [val3], nextKey := [], total := 3 }]

/-- One validator on the first of two pages; the last page is empty. -/
def emptyLastPage : List Page :=
  [{ validators := [val1], nextKey := [1], total := 1 },
   { validators := [], nextKey := [], total := 1 }]

/-- A single response without records that reports the total `2 ^ 63`. -/
def hugeTotal : List (List Field) :=
  [[Field.pagination [PageField.total 9223372036854775808]]]

/-- Three per-chain records. -/
def aprRecords : List ChainAPR := [{ bz := [65] }, { bz := [66] }, { bz := [67] }]

/-- The ledger of the circulating-supply example of the specification. -/
def ledgerEnv : Env :=
  mockEnv [] (some 1000000000000000) [some 60000000000000, some 40000000000000]
    (some 50000000000000) (aprRecords.map some)

/-- The node that serves `twoPages`. -/
def twoPagesEnv : Env := mockEnv (twoPages.map Page.wire) none [] none []

/-- The ledger mock with an APR cache time of 153,722,868 minutes. -/
def longTTLEnv : Env :=
  { ledgerEnv with Config := { mockConfig with APRCacheTime := 153722868 } }

/-- A ledger whose amounts are at the edge of the range of `sdkmath.Int`: total
supply `2 ^ 256 - 1`, locked amounts `2 ^ 256 - 1` and `1`, empty community pool. -/
def edgeLedgerEnv : Env :=
  mockEnv []
    (some 115792089237316195423570985008687907853269984665640564039457584007913129639935)
    [some 115792089237316195423570985008687907853269984665640564039457584007913129639935,
      some 1]
    (some 0) []

/-- A ledger that reports the total supply `2 ^ 63`. -/
def bigSupplyEnv : Env := mockEnv [] (some 9223372036854775808) [some 0, some 0] (some 0) []

/-- A ledger whose community pool endpoint is down. -/
def poolDownEnv : Env :=
  mockEnv [] (some 1000000000000000) [some 60000000000000, some 40000000000000] none []

/-- The node that serves `emptyLastPage`. -/
def emptyLastPageEnv : Env := mockEnv (emptyLastPage.map Page.wire) none [] none []

/-- The node that answers with `hugeTotal`. -/
def hugeTotalEnv : Env := mockEnv hugeTotal none [] none []

/-- An APR service that fails for the second chain. -/
def aprDownEnv : Env :=
  mockEnv [] none [] none [some { bz := [65] }, none, some { bz := [67] }]

/-! ## Cache keys -/

theorem validatorListKey_data (c : String) :
    (validatorListKey c).data = "validatorList.".data ++ c.data := by
  simp [validatorListKey]

theorem existingDelegationsKey_data (c a : String) :
    (existingDelegationsKey c a).data =
      "existingDelegations.".data ++ (c.data ++ '.' :: a.data) := by
  simp [existingDelegationsKey]

/-- Two lists cut at the first occurrence of `x` agree part by part. -/
theorem split_at_first {x : Char} :
    ∀ (a c b d : List Char), x ∉ a → x ∉ c → a ++ x :: b = c ++ x :: d → a = c ∧ b = d
  | [], [], b, d, _, _, h => by simpa using h
  | [], y :: c, b, d, _, hc, h => by
      simp at h
      exact absurd h.1 (by intro e; exact hc (by simp [e]))
  | y :: a, [], b, d, ha, _, h => by
      simp at h
      exact absurd h.1 (by intro e; exact ha (by simp [e]))
  | y :: a, z :: c, b, d, ha, hc, h => by
      simp at h
      have ha1 : x ∉ a := fun m => ha (List.mem_cons_of_mem _ m)
      have hc1 : x ∉ c := fun m => hc (List.mem_cons_of_mem _ m)
      obtain ⟨e1, e2⟩ := split_at_first a c b d ha1 hc1 h.2
      exact ⟨by rw [h.1, e1], e2⟩

/-- Two lists cut at the last occurrence of `x` agree part by part. -/
theorem split_at_last {x : Char} (a c b d : List Char) (hb : x ∉ b) (hd : x ∉ d)
    (h : a ++ x :: b = c ++ x :: d) : a = c ∧ b = d := by
  have h2 := congrArg List.reverse h
  simp only [List.reverse_append, List.reverse_cons, List.append_assoc,
    List.singleton_append] at h2
  have h3 := split_at_first b.reverse d.reverse a.reverse c.reverse
    (by simpa using hb) (by simpa using hd) h2
  exact ⟨List.reverse_injective h3.2, List.reverse_injective h3.1⟩

/-- Equal `existingDelegations` keys have equal parameter parts. -/
theorem existingDelegationsKey_eq (c1 a1 c2 a2 : String)
    (h : existingDelegationsKey c1 a1 = existingDelegationsKey c2 a2) :
    c1.data ++ '.' :: a1.data = c2.data ++ '.' :: a2.data := by
  have h2 := congrArg String.data h
  rw [existingDelegationsKey_data, existingDelegationsKey_data] at h2
  exact List.append_cancel_left h2

/-- C5, as stated, fails: the pairs `("a.b", "c")` and `("a", "b.c")` differ and
get the same key `existingDelegations.a.b.c`; once the payload of the first is
cached, a request for the second is answered with it without any upstream call. -/
theorem C5_counterexample :
    (("a.b", "c") : String × String) ≠ ("a", "b.c") ∧
      existingDelegationsKey "a.b" "c" = existingDelegationsKey "a" "b.c" ∧
      ConfigureRoutes ledgerEnv 0
          (Cache.SetWithTTL [] (existingDelegationsKey "a.b" "c") [7] 1 (2 * Minute))
          (Route.existingDelegations "a" "b.c") =
        { outcome := Outcome.jsonBlob StatusOK [7],
          cache := Cache.SetWithTTL [] (existingDelegationsKey "a.b" "c") [7] 1 (2 * Minute),
          calls := [] } := by
  refine ⟨by decide, by decide, by decide⟩

/-- C5, amended: when neither chain id contains a dot, or neither address does,
two different pairs `(chainId, address)` get different `existingDelegations`
keys. -/
theorem C5_existingDelegations_keys_differ (chainId1 address1 chainId2 address2 : String)
    (hdot : ('.' ∉ chainId1.data ∧ '.' ∉ chainId2.data) ∨
      ('.' ∉ address1.data ∧ '.' ∉ address2.data))
    (hne : (chainId1, address1) ≠ (chainId2, address2)) :
    existingDelegationsKey chainId1 address1 ≠ existingDelegationsKey chainId2 address2 := by
  intro h
  have h2 := existingDelegationsKey_eq _ _ _ _ h
  have h3 : chainId1.data = chainId2.data ∧ address1.data = address2.data := by
    rcases hdot with ⟨h1, h2x⟩ | ⟨h1, h2x⟩
    · exact split_at_first _ _ _ _ h1 h2x h2
    · exact split_at_last _ _ _ _ h1 h2x h2
  exact hne (by rw [String.ext h3.1, String.ext h3.2])

/-- A witness of `C5_existingDelegations_keys_differ`. -/
theorem C5_existingDelegations_keys_differ_witness :
    existingDelegationsKey "cosmoshub-4" "cosmos1abc" ≠
      existingDelegationsKey "cosmoshub-4" "cosmos1abd" :=
  C5_existingDelegations_keys_differ "cosmoshub-4" "cosmos1abc" "cosmoshub-4" "cosmos1abd"
    (Or.inl ⟨by decide, by decide⟩) (by decide)

/-- C10: the key of a validator list, the key of an existing-delegations query
and the four fixed keys are pairwise distinct whatever the path parameters are,
and the validator-list key is injective in the chain id. -/
theorem C10_keys_disjoint (chainId chainId' address : String) :
    [validatorListKey chainId, existingDelegationsKey chainId' address, zonesKey, aprKey,
        totalSupplyKey, circulatingSupplyKey].Nodup ∧
      Function.Injective validatorListKey := by
  have hv : ∀ s : String, s.data.head? ≠ some 'v' → validatorListKey chainId ≠ s := by
    intro s hs e
    apply hs
    rw [← e, validatorListKey_data]
    rfl
  have he : ∀ s : String, s.data.head? ≠ some 'e' →
      existingDelegationsKey chainId' address ≠ s := by
    intro s hs e
    apply hs
    rw [← e, existingDelegationsKey_data]
    rfl
  refine ⟨?_, ?_⟩
  · simp only [List.nodup_cons, List.mem_cons, List.mem_singleton, not_or, List.not_mem_nil,
      not_false_eq_true, List.nodup_nil, and_true]
    refine ⟨⟨?_, ?_, ?_, ?_, ?_⟩, ⟨?_, ?_, ?_, ?_⟩, ?_, ?_, ?_⟩
    · apply hv
      have e : (existingDelegationsKey chainId' address).data.head? = some 'e' := by
        rw [existingDelegationsKey_data]; rfl
      rw [e]; decide
    · apply hv; decide
    · apply hv; decide
    · apply hv; decide
    · apply hv; decide
    · apply he; decide
    · apply he; decide
    · apply he; decide
    · apply he; decide
    · decide
    · decide
    · decide
  · intro a b h
    have h2 := congrArg String.data h
    rw [validatorListKey_data, validatorListKey_data] at h2
    exact String.ext (List.append_cancel_left h2)

/-! ## Shape of a resolution -/

/-- The pagination loop leaves early only with an error or out of fuel. -/
theorem validatorLoop_error (env : Env) (host : String) :
    ∀ (fuel i : Nat) (r : QueryValidatorsResponse) (calls : List Call) (o : Outcome)
      (calls1 : List Call),
      validatorLoop env host fuel i r calls = (Except.error o, calls1) → o.isResponse = false
  | 0, i, r, calls, o, calls1, h => by
      simp only [validatorLoop] at h
      split at h <;> simp at h
      rw [← h.1]; rfl
  | fuel + 1, i, r, calls, o, calls1, h => by
      simp only [validatorLoop] at h
      split at h
      · split at h
        · simp at h; rw [← h.1]; rfl
        · split at h
          · simp at h; rw [← h.1]; rfl
          · exact validatorLoop_error env host fuel _ _ _ o calls1 h
      · simp at h

/-- The loop over the vesting accounts leaves early only with an error or a panic. -/
theorem lockedLoop_error (env : Env) :
    ∀ (accounts : List String) (i : Nat) (sum : Int) (calls : List Call) (o : Outcome)
      (calls1 : List Call),
      lockedLoop env accounts i sum calls = (Except.error o, calls1) → o.isResponse = false
  | [], i, sum, calls, o, calls1, h => by simp [lockedLoop] at h
  | address :: rest, i, sum, calls, o, calls1, h => by
      simp only [lockedLoop] at h
      split at h
      · simp at h; rw [← h.1]; rfl
      · split at h
        · simp at h; rw [← h.1]; rfl
        · exact lockedLoop_error env rest _ _ _ o calls1 h

/-- A resolver either answers with a body, which it has written to the cache
under the key it was given with cost 1 and the time-to-live of its route, or it
does not answer with a body and leaves the cache as it was. -/
theorem resolve_cases (env : Env) (fuel : Nat) (cache : Cache) (key : String) (route : Route) :
    ((Route.resolve env fuel cache key route).outcome.isResponse = false ∧
        (Route.resolve env fuel cache key route).cache = cache) ∨
      ∃ body, (Route.resolve env fuel cache key route).outcome = Outcome.jsonBlob StatusOK body ∧
        (Route.resolve env fuel cache key route).cache =
          { key := key, value := body, cost := 1, ttl := resolverTTL env.Config route } :: cache := by
  cases route <;>
    simp only [Route.resolve, getValidatorList, getExistingDelegations, getZones, getAPR,
      getTotalSupply, getCirculatingSupply] <;>
    (repeat' split) <;>
    first
      | (rename_i h; exact Or.inl ⟨validatorLoop_error _ _ _ _ _ _ _ _ h, rfl⟩)
      | (rename_i h; exact Or.inl ⟨lockedLoop_error _ _ _ _ _ _ _ h, rfl⟩)
      | simp_all [Outcome.isResponse, resolverTTL, Cache.SetWithTTL]

/-- An early exit of the pagination loop is a returned error, or the fuel ran out. -/
theorem validatorLoop_error_kind (env : Env) (host : String) :
    ∀ (fuel i : Nat) (r : QueryValidatorsResponse) (calls : List Call) (o : Outcome)
      (calls1 : List Call),
      validatorLoop env host fuel i r calls = (Except.error o, calls1) →
      (∃ e, o = Outcome.error e) ∨ o = Outcome.running
  | 0, i, r, calls, o, calls1, h => by
      simp only [validatorLoop] at h
      split at h <;> simp at h
      exact Or.inr h.1.symm
  | fuel + 1, i, r, calls, o, calls1, h => by
      simp only [validatorLoop] at h
      split at h
      · split at h
        · simp at h; exact Or.inl ⟨_, h.1.symm⟩
        · split at h
          · simp at h; exact Or.inl ⟨_, h.1.symm⟩
          · exact validatorLoop_error_kind env host fuel _ _ _ o calls1 h
      · simp at h

/-- An early exit of the loop over the vesting accounts is a returned error or a
panic in `Add`. -/
theorem lockedLoop_error_kind (env : Env) :
    ∀ (accounts : List String) (i : Nat) (sum : Int) (calls : List Call) (o : Outcome)
      (calls1 : List Call),
      lockedLoop env accounts i sum calls = (Except.error o, calls1) →
      (∃ e, o = Outcome.error e) ∨ o = Outcome.panicked
  | [], i, sum, calls, o, calls1, h => by simp [lockedLoop] at h
  | address :: rest, i, sum, calls, o, calls1, h => by
      simp only [lockedLoop] at h
      split at h
      · simp at h; exact Or.inl ⟨_, h.1.symm⟩
      · split at h
        · simp at h; exact Or.inr h.1.symm
        · exact lockedLoop_error_kind env rest _ _ _ o calls1 h

/-- How a resolution can end: with a body, with a returned error, with a panic
(the two supply handlers only) or in a loop that has not finished
(`getValidatorList` only). -/
theorem resolve_outcome_kind (env : Env) (fuel : Nat) (cache : Cache) (key : String)
    (route : Route) :
    (Route.resolve env fuel cache key route).outcome.isResponse = true ∨
      (∃ e, (Route.resolve env fuel cache key route).outcome = Outcome.error e) ∨
      ((Route.resolve env fuel cache key route).outcome = Outcome.panicked ∧
        (route = Route.total_supply ∨ route = Route.circulating_supply)) ∨
      ((Route.resolve env fuel cache key route).outcome = Outcome.running ∧
        ∃ chainID, route = Route.validatorList chainID) := by
  cases route <;>
    simp only [Route.resolve, getValidatorList, getExistingDelegations, getZones, getAPR,
      getTotalSupply, getCirculatingSupply] <;>
    (repeat' split) <;>
    first
      | (rename_i h
         exact (validatorLoop_error_kind _ _ _ _ _ _ _ _ h).elim
           (fun ⟨e, he⟩ => by simp [he]) (fun he => by simp [he]))
      | (rename_i h
         exact (lockedLoop_error_kind _ _ _ _ _ _ _ h).elim
           (fun ⟨e, he⟩ => by simp [he]) (fun he => by simp [he]))
      | simp [Outcome.isResponse]

/-! ## The dispatcher and the time-to-live policy -/

theorem wrapInt64_of_fits (x : Int) (h : fitsInt64 x) : wrapInt64 x = x := by
  unfold fitsInt64 at h
  unfold wrapInt64
  norm_num
  omega

theorem resolverTTL_eq_policy (cfg : Config) (route : Route)
    (hA : route = Route.apr → fitsInt64 (cfg.APRCacheTime * 60000000000))
    (hS : route = Route.total_supply ∨ route = Route.circulating_supply →
      fitsInt64 (cfg.SupplyCacheTime * 3600000000000)) :
    resolverTTL cfg route = policyTTL cfg route := by
  have small : ∀ (x k : Int), 1 ≤ k → fitsInt64 (x * k) → fitsInt64 x := by
    intro x k hk hx
    unfold fitsInt64 at *
    constructor
    · by_contra hc
      have : x * k ≤ x * 1 := Int.mul_le_mul_of_nonpos_left (by omega) hk
      omega
    · by_contra hc
      have : x * 1 ≤ x * k := Int.mul_le_mul_of_nonneg_left hk (by omega)
      omega
  cases route
  · simp [resolverTTL, policyTTL, Hour]
  · simp [resolverTTL, policyTTL, Minute]
  · simp [resolverTTL, policyTTL, Minute]
  · have h := hA rfl
    simp only [resolverTTL, policyTTL, Duration.mul, durationOf, Minute]
    rw [wrapInt64_of_fits _ (small _ _ (by norm_num) h), wrapInt64_of_fits _ h]
  · have h := hS (Or.inl rfl)
    simp only [resolverTTL, policyTTL, Duration.mul, durationOf, Hour]
    rw [wrapInt64_of_fits _ (small _ _ (by norm_num) h), wrapInt64_of_fits _ h]
  · have h := hS (Or.inr rfl)
    simp only [resolverTTL, policyTTL, Duration.mul, durationOf, Hour]
    rw [wrapInt64_of_fits _ (small _ _ (by norm_num) h), wrapInt64_of_fits _ h]

/-- C4: on each of the six routes, (1) when the key of the route is in the
cache the handler answers 200 with exactly the stored bytes, makes no upstream
call and leaves the cache as it is; (2) when the key is missing and the
resolution answers with a body, that body is what the cache then holds under the
key, so that a second request, whatever the upstream has become, is answered
with the same bytes, without any upstream call and without a cache write. -/
theorem C4_cache_hit_and_repeat (env : Env) (fuel : Nat) (cache : Cache) (route : Route) :
    (∀ data, Cache.Get cache (Route.key route) = some data →
        ConfigureRoutes env fuel cache route =
          { outcome := Outcome.jsonBlob StatusOK data, cache := cache, calls := [] }) ∧
      (Cache.Get cache (Route.key route) = none →
        ∀ status body,
          (ConfigureRoutes env fuel cache route).outcome = Outcome.jsonBlob status body →
          status = StatusOK ∧
            Cache.Get (ConfigureRoutes env fuel cache route).cache (Route.key route) = some body ∧
            ∀ (env2 : Env) (fuel2 : Nat),
              ConfigureRoutes env2 fuel2 (ConfigureRoutes env fuel cache route).cache route =
                { outcome := Outcome.jsonBlob StatusOK body,
                  cache := (ConfigureRoutes env fuel cache route).cache, calls := [] }) := by
  have hit : ∀ (e : Env) (f : Nat) (c : Cache) (data : Bytes),
      Cache.Get c (Route.key route) = some data →
      ConfigureRoutes e f c route =
        { outcome := Outcome.jsonBlob StatusOK data, cache := c, calls := [] } := by
    intro e f c data h
    simp [ConfigureRoutes, h]
  refine ⟨hit env fuel cache, ?_⟩
  intro hmiss status body hout
  have hres : ConfigureRoutes env fuel cache route =
      Route.resolve env fuel cache (Route.key route) route := by
    simp [ConfigureRoutes, hmiss]
  rw [hres] at hout ⊢
  rcases resolve_cases env fuel cache (Route.key route) route with ⟨h1, _⟩ | ⟨b, h1, h2⟩
  · rw [hout] at h1
    simp [Outcome.isResponse] at h1
  · rw [h1] at hout
    injection hout with hs hb
    subst hb
    have hget : Cache.Get (Route.resolve env fuel cache (Route.key route) route).cache
        (Route.key route) = some b := by
      rw [h2]; simp [Cache.Get]
    exact ⟨hs.symm, hget, fun env2 fuel2 => hit env2 fuel2 _ b hget⟩

/-- A witness of `C4_cache_hit_and_repeat`: the first request for `/apr` on an
empty cache resolves to the three records, and the second one is served from the
cache although the upstream is then down. -/
theorem C4_cache_hit_and_repeat_witness :
    Cache.Get [] (Route.key Route.apr) = none ∧
      (ConfigureRoutes ledgerEnv 0 [] Route.apr).outcome = Outcome.jsonBlob 200 [65, 66, 67] ∧
      ConfigureRoutes (mockEnv [] none [] none []) 0 (ConfigureRoutes ledgerEnv 0 [] Route.apr).cache
          Route.apr =
        { outcome := Outcome.jsonBlob StatusOK [65, 66, 67],
          cache := (ConfigureRoutes ledgerEnv 0 [] Route.apr).cache, calls := [] } :=
  ⟨by decide, by decide,
    ((C4_cache_hit_and_repeat ledgerEnv 0 [] Route.apr).2 (by decide) 200 [65, 66, 67]
      (by decide)).2.2 (mockEnv [] none [] none []) 0⟩

/-- C9, as stated, fails: with `APRCacheTime = 153722868` a successful `getAPR`
writes its entry with the time-to-live `-9223371993709551616` nanoseconds, the
64-bit wrap of the product, which is not 153,722,868 minutes. -/
theorem C9_counterexample :
    (getAPR longTTLEnv [] aprKey).outcome = Outcome.jsonBlob StatusOK [65, 66, 67] ∧
      (getAPR longTTLEnv [] aprKey).cache =
        [{ key := aprKey, value := [65, 66, 67], cost := 1, ttl := -9223371993709551616 }] ∧
      policyTTL longTTLEnv.Config Route.apr = 9223372080000000000 ∧
      (-9223371993709551616 : Int) ≠ policyTTL longTTLEnv.Config Route.apr := by
  refine ⟨by decide, by decide, by decide, by decide⟩

/-- C9, amended: a resolution that answers with a body has made exactly one
cache write, under the key it was passed, with cost 1 and the body as value, and
with time-to-live one hour (validatorList), two minutes (existingDelegations),
one minute (zones), `APRCacheTime` minutes (apr) and `SupplyCacheTime` hours
(total_supply, circulating_supply), the last two provided that many minutes or
hours, in nanoseconds, fit an `int64`. -/
theorem C9_ttl_policy (env : Env) (fuel : Nat) (cache : Cache) (key : String) (route : Route)
    (status : Nat) (body : Bytes)
    (hA : route = Route.apr → fitsInt64 (env.Config.APRCacheTime * 60000000000))
    (hS : route = Route.total_supply ∨ route = Route.circulating_supply →
      fitsInt64 (env.Config.SupplyCacheTime * 3600000000000))
    (hok : (Route.resolve env fuel cache key route).outcome = Outcome.jsonBlob status body) :
    (Route.resolve env fuel cache key route).cache =
      { key := key, value := body, cost := 1, ttl := policyTTL env.Config route } :: cache := by
  rcases resolve_cases env fuel cache key route with ⟨h1, _⟩ | ⟨b, h1, h2⟩
  · rw [hok] at h1
    simp [Outcome.isResponse] at h1
  · rw [h1] at hok
    injection hok with _ hb
    subst hb
    rw [h2, resolverTTL_eq_policy env.Config route hA hS]

/-- A witness of `C9_ttl_policy`: `getAPR` with a cache time of 15 minutes. -/
theorem C9_ttl_policy_witness :
    (Route.resolve ledgerEnv 0 [] aprKey Route.apr).outcome = Outcome.jsonBlob 200 [65, 66, 67] ∧
      (Route.resolve ledgerEnv 0 [] aprKey Route.apr).cache =
        [{ key := aprKey, value := [65, 66, 67], cost := 1, ttl := 900000000000 }] :=
  ⟨by decide,
    C9_ttl_policy ledgerEnv 0 [] aprKey Route.apr 200 [65, 66, 67]
      (fun _ => by decide) (fun _ => by decide) (by decide)⟩

/-! ## Supply arithmetic -/

theorem sdkInt64_eq (a : Int) :
    sdkInt64 a = if fitsInt64 a then some a else none := by
  unfold sdkInt64 fitsInt64
  norm_num

theorem lockedLoop_served (env : Env) :
    ∀ (accounts : List String) (locked : List Int) (i : Nat) (acc : Int) (calls : List Call),
      servesLocked env i accounts locked →
      (sumsInRange acc locked ∧
          lockedLoop env accounts i acc calls =
            (Except.ok (acc + locked.sum),
              calls ++ accounts.map (Call.getVestingAccountLocked (accountsURL env)))) ∨
        (¬ sumsInRange acc locked ∧
          ∃ calls1, lockedLoop env accounts i acc calls = (Except.error Outcome.panicked, calls1))
  | [], [], i, acc, calls, _ => by
      left
      simp [sumsInRange, lockedLoop]
  | [], _ :: _, _, _, _, h => by simp [servesLocked] at h
  | _ :: _, [], _, _, _, h => by simp [servesLocked] at h
  | address :: rest, x :: xs, i, acc, calls, h => by
      simp only [servesLocked] at h
      obtain ⟨h1, h2⟩ := h
      simp only [lockedLoop, h1, sdkAdd, sumsInRange]
      by_cases hr : sdkInRange (acc + x) = true
      · simp only [hr, if_true, true_and]
        rcases lockedLoop_served env rest xs (i + 1) (acc + x)
            (calls ++ [Call.getVestingAccountLocked (accountsURL env) address]) h2 with
          ⟨hs, he⟩ | ⟨hs, he⟩
        · left
          refine ⟨hs, ?_⟩
          rw [he]
          simp [Int.add_assoc]
        · right
          exact ⟨hs, he⟩
      · right
        simp [hr]

theorem circulatingInt64_eq_some (T L C x : Int) :
    circulatingInt64 T L C = some x ↔
      sdkInRange (T - L) = true ∧ sdkInRange (T - L - C) = true ∧
        fitsInt64 (T - L - C - 500000000000) ∧ x = T - L - C - 500000000000 := by
  have hin : ∀ y : Int, fitsInt64 y → sdkInRange y = true := by
    intro y hy
    unfold fitsInt64 at hy
    unfold sdkInRange MaxBitLen
    simp only [decide_eq_true_eq]
    have : y.natAbs < 9223372036854775809 := by omega
    exact lt_trans this (by norm_num)
  unfold circulatingInt64 sdkSub
  by_cases h1 : sdkInRange (T - L) = true
  · by_cases h2 : sdkInRange (T - L - C) = true
    · by_cases h3 : fitsInt64 (T - L - C - 500000000000)
      · simp [h1, h2, h3, hin _ h3, sdkInt64_eq, eq_comm]
      · by_cases h4 : sdkInRange (T - L - C - 500000000000) = true
        · simp [h1, h2, h3, h4, sdkInt64_eq]
        · simp [h1, h2, h3, h4]
    · simp [h1, h2]
  · simp [h1]

/-- The calls and the answer of `getCirculatingSupply` when all its fetches succeed. -/
theorem getCirculatingSupply_served (env : Env) (cache : Cache) (key : String) (T C : Int)
    (locked : List Int)
    (hl : servesLocked env 0 env.VestingAccounts locked)
    (hT : env.getTotalSupply (supplyURL env) = some T)
    (hC : env.getCommunityPool (communityPoolURL env) = some C) :
    (sumsInRange 0 locked ∧
        getCirculatingSupply env cache key =
          match circulatingInt64 T locked.sum C with
          | none =>
              { outcome := Outcome.panicked, cache := cache,
                calls := env.VestingAccounts.map (Call.getVestingAccountLocked (accountsURL env))
                  ++ [Call.getTotalSupply (supplyURL env),
                      Call.getCommunityPool (communityPoolURL env)] }
          | some x =>
              match marshalScaled env x with
              | none =>
                  { outcome := Outcome.error SvcError.ErrMarshalResponse, cache := cache,
                    calls := env.VestingAccounts.map
                        (Call.getVestingAccountLocked (accountsURL env))
                      ++ [Call.getTotalSupply (supplyURL env),
                          Call.getCommunityPool (communityPoolURL env)] }
              | some respData =>
                  { outcome := Outcome.jsonBlob StatusOK respData,
                    cache := Cache.SetWithTTL cache key respData 1
                      (Duration.mul (durationOf env.Config.SupplyCacheTime) Hour),
                    calls := env.VestingAccounts.map
                        (Call.getVestingAccountLocked (accountsURL env))
                      ++ [Call.getTotalSupply (supplyURL env),
                          Call.getCommunityPool (communityPoolURL env)] }) ∨
      (¬ sumsInRange 0 locked ∧
        (getCirculatingSupply env cache key).outcome = Outcome.panicked ∧
        (getCirculatingSupply env cache key).cache = cache) := by
  rcases lockedLoop_served env env.VestingAccounts locked 0 0 [] hl with ⟨hs, he⟩ | ⟨hs, c1, he⟩
  · left
    refine ⟨hs, ?_⟩
    simp only [getCirculatingSupply, he, hT, hC, Int.zero_add, List.nil_append]
    cases circulatingInt64 T locked.sum C with
    | none => simp
    | some x =>
        cases marshalScaled env x with
        | none => simp
        | some respData => simp
  · right
    refine ⟨hs, ?_⟩
    simp [getCirculatingSupply, he]

/-- C2, as stated, fails: on a ledger with total supply `2 ^ 256 - 1`, locked
amounts `2 ^ 256 - 1` and `1` and an empty community pool every fetch succeeds
and `T - L - C - 500,000,000,000 = -500,000,000,001` is an `int64`, yet the
handler panics in `Add` and caches nothing. -/
theorem C2_counterexample :
    servesLocked edgeLedgerEnv 0 edgeLedgerEnv.VestingAccounts
        [115792089237316195423570985008687907853269984665640564039457584007913129639935, 1] ∧
      edgeLedgerEnv.getTotalSupply (supplyURL edgeLedgerEnv) =
        some 115792089237316195423570985008687907853269984665640564039457584007913129639935 ∧
      edgeLedgerEnv.getCommunityPool (communityPoolURL edgeLedgerEnv) = some 0 ∧
      fitsInt64
        (115792089237316195423570985008687907853269984665640564039457584007913129639935
          - (115792089237316195423570985008687907853269984665640564039457584007913129639935 + 1)
          - 0 - 500000000000) ∧
      (getCirculatingSupply edgeLedgerEnv [] circulatingSupplyKey).outcome = Outcome.panicked ∧
      (getCirculatingSupply edgeLedgerEnv [] circulatingSupplyKey).cache = [] := by
  refine ⟨⟨rfl, rfl, trivial⟩, rfl, rfl, by decide, by decide, by decide⟩

theorem marshalScaled_conforms (env : Env) (hfloat : FloatConforms env) (x : Int)
    (hx : fitsInt64 x) : marshalScaled env x = scaledJSON x := by
  obtain ⟨h1, h2, h3⟩ := hfloat x hx
  unfold marshalScaled scaledJSON
  rw [h1, h2, h3]

set_option maxRecDepth 100000 in
/-- C2, amended: when every fetch succeeds with total supply `T`, locked amounts
`locked` (one per vesting account, of sum `L`) and community pool balance `C`,
every running sum of the locked amounts, `T - L` and `T - L - C` are in the
range of `sdkmath.Int` (magnitude below `2 ^ 256`), and
`T - L - C - 500,000,000,000` is an `int64`, then the figure before display
scaling is exactly `T - L - C - 500,000,000,000`, and the handler answers and
caches the JSON encoding of `float64(figure) / 1_000_000`, computed as IEEE 754
and `encoding/json` prescribe.  In particular for `T = 10 ^ 15`, `L = 10 ^ 14`,
`C = 5 * 10 ^ 13` the figure is 849,500,000,000,000 and the payload is the text
`849500000`. -/
theorem C2_circulating_supply (env : Env) (cache : Cache) (key : String) (T C : Int)
    (locked : List Int)
    (hl : servesLocked env 0 env.VestingAccounts locked)
    (hT : env.getTotalSupply (supplyURL env) = some T)
    (hC : env.getCommunityPool (communityPoolURL env) = some C)
    (hsum : sumsInRange 0 locked)
    (h1 : sdkInRange (T - locked.sum) = true)
    (h2 : sdkInRange (T - locked.sum - C) = true)
    (hfit : fitsInt64 (T - locked.sum - C - 500000000000))
    (hfloat : FloatConforms env) :
    circulatingInt64 T locked.sum C = some (T - locked.sum - C - 500000000000) ∧
      getCirculatingSupply env cache key =
        (match scaledJSON (T - locked.sum - C - 500000000000) with
          | none =>
              { outcome := Outcome.error SvcError.ErrMarshalResponse, cache := cache,
                calls := env.VestingAccounts.map
                    (Call.getVestingAccountLocked (accountsURL env))
                  ++ [Call.getTotalSupply (supplyURL env),
                      Call.getCommunityPool (communityPoolURL env)] }
          | some respData =>
              { outcome := Outcome.jsonBlob StatusOK respData,
                cache := Cache.SetWithTTL cache key respData 1
                  (Duration.mul (durationOf env.Config.SupplyCacheTime) Hour),
                calls := env.VestingAccounts.map
                    (Call.getVestingAccountLocked (accountsURL env))
                  ++ [Call.getTotalSupply (supplyURL env),
                      Call.getCommunityPool (communityPoolURL env)] }) ∧
      circulatingInt64 1000000000000000 100000000000000 50000000000000 =
        some 849500000000000 ∧
      scaledJSON 849500000000000 = some (ascii "849500000") ∧
      (T = 1000000000000000 → locked.sum = 100000000000000 → C = 50000000000000 →
        (getCirculatingSupply env cache key).outcome =
            Outcome.jsonBlob StatusOK (ascii "849500000") ∧
          (getCirculatingSupply env cache key).cache =
            Cache.SetWithTTL cache key (ascii "849500000") 1
              (Duration.mul (durationOf env.Config.SupplyCacheTime) Hour)) := by
  have hc : circulatingInt64 T locked.sum C = some (T - locked.sum - C - 500000000000) :=
    (circulatingInt64_eq_some _ _ _ _).2 ⟨h1, h2, hfit, rfl⟩
  have hjson : scaledJSON 849500000000000 = some (ascii "849500000") := by decide
  have hres : getCirculatingSupply env cache key =
      (match scaledJSON (T - locked.sum - C - 500000000000) with
        | none =>
            { outcome := Outcome.error SvcError.ErrMarshalResponse, cache := cache,
              calls := env.VestingAccounts.map
                  (Call.getVestingAccountLocked (accountsURL env))
                ++ [Call.getTotalSupply (supplyURL env),
                    Call.getCommunityPool (communityPoolURL env)] }
        | some respData =>
            { outcome := Outcome.jsonBlob StatusOK respData,
              cache := Cache.SetWithTTL cache key respData 1
                (Duration.mul (durationOf env.Config.SupplyCacheTime) Hour),
              calls := env.VestingAccounts.map
                  (Call.getVestingAccountLocked (accountsURL env))
                ++ [Call.getTotalSupply (supplyURL env),
                    Call.getCommunityPool (communityPoolURL env)] }) := by
    rcases getCirculatingSupply_served env cache key T C locked hl hT hC with ⟨_, he⟩ | ⟨hs, _⟩
    · rw [he, hc]
      simp only [marshalScaled_conforms env hfloat _ hfit]
    · exact absurd hsum hs
  refine ⟨hc, hres, by decide, hjson, ?_⟩
  intro eT eL eC
  have hfig : T - locked.sum - C - 500000000000 = 849500000000000 := by
    rw [eT, eL, eC]; decide
  rw [hres, hfig, hjson]
  exact ⟨rfl, rfl⟩

/-- A witness of `C2_circulating_supply`: the example of the specification, with
the locked sum `10 ^ 14` held by two vesting accounts; the payload is the text
`849500000`. -/
theorem C2_circulating_supply_witness :
    (getCirculatingSupply ledgerEnv [] circulatingSupplyKey).outcome =
        Outcome.jsonBlob StatusOK (ascii "849500000") ∧
      (getCirculatingSupply ledgerEnv [] circulatingSupplyKey).cache =
        Cache.SetWithTTL [] circulatingSupplyKey (ascii "849500000") 1
          (Duration.mul (durationOf ledgerEnv.Config.SupplyCacheTime) Hour) :=
  (C2_circulating_supply ledgerEnv [] circulatingSupplyKey 1000000000000000 50000000000000
    [60000000000000, 40000000000000]
    ⟨rfl, rfl, trivial⟩ rfl rfl ⟨by decide, by decide, trivial⟩ (by decide) (by decide)
    (by decide) (fun _ _ => ⟨rfl, rfl, rfl⟩)).2.2.2.2 rfl (by decide) rfl

/-- C6, as stated, fails: for the total supply `2 ^ 63` the conversion `Int64()`
makes `getTotalSupply` panic, and for the total supply `2 ^ 63 + 500,000,000,000`
with nothing locked and an empty pool `getCirculatingSupply` panics as well;
nothing is cached by a panicking handler. -/
theorem C6_counterexample :
    bigSupplyEnv.getTotalSupply (supplyURL bigSupplyEnv) = some 9223372036854775808 ∧
      (getTotalSupply bigSupplyEnv [] totalSupplyKey).outcome = Outcome.panicked ∧
      (getTotalSupply bigSupplyEnv [] totalSupplyKey).cache = [] ∧
      (getCirculatingSupply
          (mockEnv [] (some 9223372537354775808) [some 0, some 0] (some 0) []) []
          circulatingSupplyKey).outcome = Outcome.panicked := by
  refine ⟨rfl, by decide, by decide, by decide⟩

/-- C6, amended: the supply handlers never wrap or truncate, they answer with the
exact integer or panic.  When the total supply `T` is fetched, `getTotalSupply`
answers `json.Marshal(float64(T) / 1_000_000)` if `T` is an `int64` and panics,
caching nothing, if it is not.  When all fetches of `getCirculatingSupply`
succeed, every answer it gives is `json.Marshal(float64(x) / 1_000_000)` for the
exact integer `x = T - L - C - 500,000,000,000`, which then is an `int64`; when
that integer is not an `int64` the handler panics and caches nothing. -/
theorem C6_exact_or_panic (env : Env) (cache : Cache) (key : String) :
    (∀ T : Int, env.getTotalSupply (supplyURL env) = some T →
        (fitsInt64 T →
          (getTotalSupply env cache key).outcome =
            match marshalScaled env T with
            | some respData => Outcome.jsonBlob StatusOK respData
            | none => Outcome.error SvcError.ErrMarshalResponse) ∧
        (¬ fitsInt64 T →
          (getTotalSupply env cache key).outcome = Outcome.panicked ∧
            (getTotalSupply env cache key).cache = cache)) ∧
      (∀ (T C : Int) (locked : List Int),
        servesLocked env 0 env.VestingAccounts locked →
        env.getTotalSupply (supplyURL env) = some T →
        env.getCommunityPool (communityPoolURL env) = some C →
        (∀ status body,
          (getCirculatingSupply env cache key).outcome = Outcome.jsonBlob status body →
          fitsInt64 (T - locked.sum - C - 500000000000) ∧
            marshalScaled env (T - locked.sum - C - 500000000000) = some body) ∧
        (¬ fitsInt64 (T - locked.sum - C - 500000000000) →
          (getCirculatingSupply env cache key).outcome = Outcome.panicked ∧
            (getCirculatingSupply env cache key).cache = cache)) := by
  constructor
  · intro T hT
    constructor
    · intro hfit
      simp only [getTotalSupply, hT, sdkInt64_eq, hfit, if_true]
      cases marshalScaled env T <;> simp
    · intro hfit
      simp [getTotalSupply, hT, sdkInt64_eq, hfit]
  · intro T C locked hl hT hC
    rcases getCirculatingSupply_served env cache key T C locked hl hT hC with
      ⟨_, he⟩ | ⟨_, hp, hcache⟩
    · cases hcirc : circulatingInt64 T locked.sum C with
      | none =>
          rw [hcirc] at he
          constructor
          · intro status body hout
            rw [he] at hout
            simp at hout
          · intro _
            rw [he]
            exact ⟨rfl, rfl⟩
      | some x =>
          rw [hcirc] at he
          obtain ⟨_, _, hfit, hx⟩ := (circulatingInt64_eq_some _ _ _ _).1 hcirc
          subst hx
          constructor
          · intro status body hout
            rw [he] at hout
            cases hm : marshalScaled env (T - locked.sum - C - 500000000000) with
            | none => simp [hm] at hout
            | some respData =>
                simp [hm] at hout
                exact ⟨hfit, by rw [hout.2]⟩
          · intro hnot
            exact absurd hfit hnot
    · constructor
      · intro status body hout
        rw [hp] at hout
        simp at hout
      · intro _
        exact ⟨hp, hcache⟩

set_option maxRecDepth 100000 in
/-- A witness of `C6_exact_or_panic`: `getTotalSupply` on the total supply
`10 ^ 15`, which is an `int64`, answers the text `1000000000`, and on the total
supply `2 ^ 63` it panics; `getCirculatingSupply` on the ledger of the example
answers only with an exact `int64` figure. -/
theorem C6_exact_or_panic_witness :
    ((getTotalSupply ledgerEnv [] totalSupplyKey).outcome =
        match marshalScaled ledgerEnv 1000000000000000 with
        | some respData => Outcome.jsonBlob StatusOK respData
        | none => Outcome.error SvcError.ErrMarshalResponse) ∧
      ((getTotalSupply bigSupplyEnv [] totalSupplyKey).outcome = Outcome.panicked ∧
        (getTotalSupply bigSupplyEnv [] totalSupplyKey).cache = []) ∧
      (fitsInt64 (1000000000000000 - ([60000000000000, 40000000000000] : List Int).sum
            - 50000000000000 - 500000000000) ∧
        marshalScaled ledgerEnv
            (1000000000000000 - ([60000000000000, 40000000000000] : List Int).sum
              - 50000000000000 - 500000000000) = some (ascii "849500000")) :=
  ⟨((C6_exact_or_panic ledgerEnv [] totalSupplyKey).1 1000000000000000 rfl).1 (by decide),
    ((C6_exact_or_panic bigSupplyEnv [] totalSupplyKey).1 9223372036854775808 rfl).2 (by decide),
    ((C6_exact_or_panic ledgerEnv [] circulatingSupplyKey).2 1000000000000000 50000000000000
      [60000000000000, 40000000000000] ⟨rfl, rfl, trivial⟩ rfl rfl).1 StatusOK
      (ascii "849500000") (by decide)⟩

/-! ## APR aggregation -/

theorem servesAPR_length (env : Env) :
    ∀ (chains : List String) (records : List ChainAPR) (i : Nat),
      servesAPR env i chains records → records.length = chains.length
  | [], [], _, _ => rfl
  | [], _ :: _, _, h => by simp [servesAPR] at h
  | _ :: _, [], _, h => by simp [servesAPR] at h
  | _ :: rest, _ :: rs, i, h => by
      simp only [servesAPR] at h
      simp [servesAPR_length env rest rs (i + 1) h.2]

theorem aprLoop_served (env : Env) :
    ∀ (chains : List String) (records : List ChainAPR) (i : Nat) (aprResp : APRResponse)
      (calls : List Call),
      servesAPR env i chains records →
      aprLoop env chains i aprResp calls =
        (some { Chains := aprResp.Chains ++ records }, calls ++ aprCalls env chains)
  | [], [], i, aprResp, calls, _ => by simp [aprLoop, aprCalls]
  | [], _ :: _, _, _, _, h => by simp [servesAPR] at h
  | _ :: _, [], _, _, _, h => by simp [servesAPR] at h
  | chain :: rest, r :: rs, i, aprResp, calls, h => by
      simp only [servesAPR] at h
      simp only [aprLoop, h.1]
      rw [aprLoop_served env rest rs (i + 1) _ _ h.2]
      simp [aprCalls]

theorem aprLoop_failed (env : Env) :
    ∀ (chains : List String) (i : Nat) (aprResp : APRResponse) (calls : List Call) (j : Nat)
      (chain : String),
      chains[j]? = some chain →
      env.getAPRquery (i + j) (env.Config.APRURL ++ "/") chain = none →
      (aprLoop env chains i aprResp calls).1 = none
  | [], _, _, _, j, chain, h, _ => by simp at h
  | c :: rest, i, aprResp, calls, 0, chain, h, hf => by
      simp at h
      subst h
      simp only [Nat.add_zero] at hf
      simp [aprLoop, hf]
  | c :: rest, i, aprResp, calls, j + 1, chain, h, hf => by
      simp at h
      simp only [aprLoop]
      cases hq : env.getAPRquery i (env.Config.APRURL ++ "/") c with
      | none => simp
      | some chainAPR =>
          simp only []
          exact aprLoop_failed env rest (i + 1) _ _ j chain h
            (by rw [show i + 1 + j = i + (j + 1) by omega]; exact hf)

/-- C7: when the fetch for every configured chain succeeds, with the records
`records` in the order of the configured list, the response `getAPR` hands to the
serializer has exactly these records as its chains list, one per configured
chain and in the order of the list, and the bytes it answers are the bytes it
caches; and when the fetch for any one chain fails, the resolution fails with
`ErrUnableToGetAPR` and the cache is left as it was. -/
theorem C7_apr_aggregation (env : Env) (cache : Cache) (key : String) :
    (∀ records : List ChainAPR, servesAPR env 0 env.Config.Chains records →
        records.length = env.Config.Chains.length ∧
          getAPR env cache key =
            match env.jsonMarshalAPR { Chains := records } with
            | none =>
                { outcome := Outcome.error SvcError.ErrMarshalResponse, cache := cache,
                  calls := aprCalls env env.Config.Chains }
            | some respData =>
                { outcome := Outcome.jsonBlob StatusOK respData,
                  cache := Cache.SetWithTTL cache key respData 1
                    (Duration.mul (durationOf env.Config.APRCacheTime) Minute),
                  calls := aprCalls env env.Config.Chains }) ∧
      (∀ (j : Nat) (chain : String), env.Config.Chains[j]? = some chain →
        env.getAPRquery j (env.Config.APRURL ++ "/") chain = none →
        (getAPR env cache key).outcome = Outcome.error SvcError.ErrUnableToGetAPR ∧
          (getAPR env cache key).cache = cache) := by
  constructor
  · intro records h
    refine ⟨servesAPR_length env _ _ 0 h, ?_⟩
    simp only [getAPR, aprLoop_served env _ _ 0 { Chains := [] } [] h, List.nil_append]
  · intro j chain hj hf
    have h := aprLoop_failed env env.Config.Chains 0 { Chains := [] } [] j chain hj
      (by rw [Nat.zero_add]; exact hf)
    simp only [getAPR]
    cases hl : aprLoop env env.Config.Chains 0 { Chains := [] } [] with
    | mk fst snd =>
        rw [hl] at h
        simp only at h
        subst h
        simp

/-- A witness of `C7_apr_aggregation`: for the chains `A`, `B`, `C` the payload
holds the three records in this order; and when the fetch for `B` fails the
resolution fails with `ErrUnableToGetAPR`. -/
theorem C7_apr_aggregation_witness :
    (aprRecords.length = ledgerEnv.Config.Chains.length ∧
      getAPR ledgerEnv [] aprKey =
        match ledgerEnv.jsonMarshalAPR { Chains := aprRecords } with
        | none =>
            { outcome := Outcome.error SvcError.ErrMarshalResponse, cache := [],
              calls := aprCalls ledgerEnv ledgerEnv.Config.Chains }
        | some respData =>
            { outcome := Outcome.jsonBlob StatusOK respData,
              cache := Cache.SetWithTTL [] aprKey respData 1
                (Duration.mul (durationOf ledgerEnv.Config.APRCacheTime) Minute),
              calls := aprCalls ledgerEnv ledgerEnv.Config.Chains }) ∧
      ((getAPR aprDownEnv [] aprKey).outcome = Outcome.error SvcError.ErrUnableToGetAPR ∧
        (getAPR aprDownEnv [] aprKey).cache = []) :=
  ⟨(C7_apr_aggregation ledgerEnv [] aprKey).1 aprRecords ⟨rfl, rfl, rfl, trivial⟩,
    (C7_apr_aggregation aprDownEnv [] aprKey).2 1 "B" rfl rfl⟩

/-! ## The pagination loop -/

theorem unmarshal_validators (vs : List Validator) :
    ∀ (m : QueryValidatorsResponse) (fs : List Field),
      QueryValidatorsResponse.Unmarshal m (vs.map Field.validators ++ fs) =
        QueryValidatorsResponse.Unmarshal { m with Validators := m.Validators ++ vs } fs := by
  induction vs with
  | nil => intro m fs; simp
  | cons v vs ih =>
      intro m fs
      show QueryValidatorsResponse.Unmarshal m
        (Field.validators v :: (vs.map Field.validators ++ fs)) = _
      rw [QueryValidatorsResponse.Unmarshal, ih]
      simp

theorem unmarshal_wire (m : QueryValidatorsResponse) (p : Page) :
    QueryValidatorsResponse.Unmarshal m p.wire =
      { Validators := m.Validators ++ p.validators,
        Pagination := some
          { NextKey := if p.nextKey.length > 0 then p.nextKey
              else (m.Pagination.getD { NextKey := [], Total := 0 }).NextKey,
            Total := if p.total = 0 then (m.Pagination.getD { NextKey := [], Total := 0 }).Total
              else p.total % 2 ^ 64 } } := by
  unfold Page.wire
  rw [unmarshal_validators]
  by_cases hk : p.nextKey.length > 0 <;> by_cases ht : p.total = 0 <;>
    simp [QueryValidatorsResponse.Unmarshal, PageResponse.Unmarshal, hk, ht]

theorem accumulate_cons (r : QueryValidatorsResponse) (p : Page) (rest : List Page) :
    accumulate r (p :: rest) = accumulate (QueryValidatorsResponse.Unmarshal r p.wire) rest := by
  simp [accumulate]

theorem allValidators_cons (p : Page) (rest : List Page) :
    allValidators (p :: rest) = p.validators ++ allValidators rest := by
  simp [allValidators]

theorem accumulate_validators :
    ∀ (pages : List Page) (r : QueryValidatorsResponse),
      (accumulate r pages).Validators = r.Validators ++ allValidators pages
  | [], r => by simp [accumulate, allValidators]
  | p :: rest, r => by
      rw [accumulate_cons, accumulate_validators rest, unmarshal_wire, allValidators_cons]
      simp

theorem expectedQueries_length (host : String) :
    ∀ (pages : List Page) (req : QueryValidatorsRequest),
      (expectedQueries host req pages).length = pages.length
  | [], _ => rfl
  | p :: rest, req => by
      simp [expectedQueries, expectedQueries_length host rest]

theorem allValidators_pos :
    ∀ (pages : List Page) (h : pages ≠ []), (pages.getLast h).validators ≠ [] →
      0 < (allValidators pages).length
  | [], h, _ => absurd rfl h
  | [p], _, hl => by
      simp only [List.getLast_singleton] at hl
      simp [allValidators, List.length_pos, hl]
  | p :: q :: rest, _, hl => by
      rw [allValidators_cons, List.length_append]
      have := allValidators_pos (q :: rest) (by simp) (by simpa using hl)
      omega

theorem intOfUint64_small (n : Nat) (h : n < 2 ^ 63) : intOfUint64 n = n := by
  unfold intOfUint64 wrapInt64
  norm_num at h ⊢
  omega

/-- Once the loop condition is false the loop is over, whatever fuel is left. -/
theorem validatorLoop_done (env : Env) (host : String) (fuel i : Nat)
    (r : QueryValidatorsResponse) (calls : List Call) (h : loopCond r = false) :
    validatorLoop env host fuel i r calls = (Except.ok r, calls) := by
  cases fuel <;> simp [validatorLoop, h]

/-- The loop ends successfully only in a state in which its condition is false. -/
theorem validatorLoop_ok (env : Env) (host : String) :
    ∀ (fuel i : Nat) (r : QueryValidatorsResponse) (calls : List Call)
      (r1 : QueryValidatorsResponse) (calls1 : List Call),
      validatorLoop env host fuel i r calls = (Except.ok r1, calls1) → loopCond r1 = false
  | 0, i, r, calls, r1, calls1, h => by
      simp only [validatorLoop] at h
      split at h
      · simp at h
      · simp at h
        rw [← h.1]
        simpa using ‹¬ loopCond r = true›
  | fuel + 1, i, r, calls, r1, calls1, h => by
      simp only [validatorLoop] at h
      split at h
      · split at h
        · simp at h
        · split at h
          · simp at h
          · exact validatorLoop_ok env host fuel _ _ _ r1 calls1 h
      · simp at h
        rw [← h.1]
        simpa using ‹¬ loopCond r = true›

/-- A successful loop ends with pagination info and, when the reported total is
below `2 ^ 63`, with at least that many validators. -/
theorem validatorLoop_ok_count (env : Env) (host : String) (fuel i : Nat)
    (r : QueryValidatorsResponse) (calls : List Call) (r1 : QueryValidatorsResponse)
    (calls1 : List Call) (h : validatorLoop env host fuel i r calls = (Except.ok r1, calls1)) :
    ∃ p, r1.Pagination = some p ∧ (p.Total < 2 ^ 63 → p.Total ≤ r1.Validators.length) := by
  have hc := validatorLoop_ok env host fuel i r calls r1 calls1 h
  unfold loopCond at hc
  cases hp : r1.Pagination with
  | none => rw [hp] at hc; simp at hc
  | some p =>
      rw [hp] at hc
      refine ⟨p, rfl, fun hlt => ?_⟩
      simp only [decide_eq_false_iff_not, not_lt] at hc
      rw [intOfUint64_small p.Total hlt] at hc
      exact_mod_cast hc

/-- The loop on an upstream that serves the pages `p :: rest`, entered with the
response `r` accumulated so far. -/
theorem validatorLoop_pages (env : Env) (host : String) (N : Nat) (hN : N < 2 ^ 63) :
    ∀ (rest : List Page) (p : Page) (fuel i : Nat) (r : QueryValidatorsResponse)
      (calls : List Call),
      rest.length + 1 ≤ fuel →
      (∀ q ∈ p :: rest, q.total = N) →
      (r.Pagination = none ∨ (r.Pagination.getD { NextKey := [], Total := 0 }).Total = N) →
      loopCond r = true →
      r.Validators.length + (allValidators (p :: rest)).length = N →
      (∀ q ∈ (p :: rest).dropLast, q.nextKey ≠ []) →
      (∀ h : rest ≠ [], (rest.getLast h).validators ≠ []) →
      servesPages env host i (nextRequest r) (p :: rest) →
      validatorLoop env host fuel i r calls =
        (Except.ok (accumulate r (p :: rest)),
          calls ++ expectedQueries host (nextRequest r) (p :: rest))
  | rest, p, 0, i, r, calls, hfuel, _, _, _, _, _, _, _ => by omega
  | rest, p, fuel + 1, i, r, calls, hfuel, htotal, hinv, hcond, hcount, hcursor, hlast, hserve => by
      simp only [servesPages] at hserve
      obtain ⟨hq, hrest⟩ := hserve
      have hpt : p.total = N := htotal p (List.mem_cons_self _ _)
      -- the state after the page `p`
      have htot1 : (if p.total = 0 then (r.Pagination.getD { NextKey := [], Total := 0 }).Total
          else p.total % 2 ^ 64) = N := by
        by_cases h0 : p.total = 0
        · rw [if_pos h0]
          rcases hinv with hnone | ht
          · rw [hnone]; simp; omega
          · exact ht
        · rw [if_neg h0, hpt]
          exact Nat.mod_eq_of_lt (lt_trans hN (by norm_num))
      have hstep : validatorLoop env host (fuel + 1) i r calls =
          validatorLoop env host fuel (i + 1) (QueryValidatorsResponse.Unmarshal r p.wire)
            (calls ++ [Call.ABCIQuery host validatorsPath (Request.validators (nextRequest r))]) := by
        simp only [validatorLoop, hcond, if_true]
        cases hv : env.ABCIQuery host i validatorsPath (Request.validators (nextRequest r)) with
        | none => rw [hv] at hq; simp at hq
        | some value =>
            rw [hv] at hq
            have hq2 : env.decodeValidators value = some p.wire := hq
            simp only [hq2]
      rw [hstep, accumulate_cons]
      cases rest with
      | nil =>
          have hdone : loopCond (QueryValidatorsResponse.Unmarshal r p.wire) = false := by
            rw [unmarshal_wire]
            simp only [loopCond, htot1, List.length_append]
            rw [intOfUint64_small N hN]
            simp [allValidators] at hcount
            simp only [decide_eq_false_iff_not, not_lt]
            omega
          rw [validatorLoop_done env host fuel (i + 1) _ _ hdone]
          simp [accumulate, expectedQueries]
      | cons q rest1 =>
          have hpos := allValidators_pos (q :: rest1) (by simp) (hlast (by simp))
          have hkey : p.nextKey ≠ [] := hcursor p (by simp [List.dropLast])
          have hklen : p.nextKey.length > 0 := List.length_pos.2 hkey
          have hnext : nextRequest (QueryValidatorsResponse.Unmarshal r p.wire) = cursorRequest p := by
            rw [unmarshal_wire]
            simp [nextRequest, cursorRequest, hklen]
          have hcond1 : loopCond (QueryValidatorsResponse.Unmarshal r p.wire) = true := by
            rw [unmarshal_wire]
            simp only [loopCond, htot1, List.length_append]
            rw [intOfUint64_small N hN]
            rw [allValidators_cons, List.length_append] at hcount
            simp only [decide_eq_true_eq]
            omega
          have ih := validatorLoop_pages env host N hN rest1 q fuel (i + 1)
            (QueryValidatorsResponse.Unmarshal r p.wire)
            (calls ++ [Call.ABCIQuery host validatorsPath (Request.validators (nextRequest r))])
            (by simp at hfuel ⊢; omega)
            (fun x hx => htotal x (List.mem_cons_of_mem _ hx))
            (by right; rw [unmarshal_wire]; simpa using htot1)
            hcond1
            (by
              rw [unmarshal_wire]
              rw [allValidators_cons] at hcount
              simp only [List.length_append] at hcount ⊢
              omega)
            (fun x hx => hcursor x (by
              simp only [List.dropLast_cons₂] at hx ⊢
              exact List.mem_cons_of_mem _ hx))
            (fun h => by
              have := hlast (by simp)
              rw [List.getLast_cons h] at this
              exact this)
            (by rw [hnext]; exact hrest)
          rw [ih, hnext]
          simp [expectedQueries]

/-- C1, as stated, fails: the mocked upstream serves one validator on two
pages, reports the total 1 on both and gives a cursor on the first page only,
the last page being empty; `getValidatorList` stops after one query, not two. -/
theorem C1_counterexample :
    servesPages emptyLastPageEnv (emptyLastPageEnv.Sprintf emptyLastPageEnv.Config.ChainHost "c")
        0 firstRequest emptyLastPage ∧
      emptyLastPage.length = 2 ∧
      (allValidators emptyLastPage).length = 1 ∧
      (∀ p ∈ emptyLastPage, p.total = 1) ∧
      (∀ p ∈ emptyLastPage.dropLast, p.nextKey ≠ []) ∧
      (getValidatorList emptyLastPageEnv 5 [] (validatorListKey "c") "c").calls =
        [Call.NewRPCClient "rpc.c",
          Call.ABCIQuery "rpc.c" validatorsPath (Request.validators firstRequest)] ∧
      (getValidatorList emptyLastPageEnv 5 [] (validatorListKey "c") "c").calls ≠
        Call.NewRPCClient "rpc.c" :: expectedQueries "rpc.c" firstRequest emptyLastPage ∧
      (getValidatorList emptyLastPageEnv 5 [] (validatorListKey "c") "c").outcome =
        Outcome.jsonBlob StatusOK [11] := by
  refine ⟨⟨rfl, rfl, trivial⟩, rfl, rfl, by decide, by decide, by decide, by decide, by decide⟩

/-- C1, amended: let an upstream serve `N` validators (`N` below `2 ^ 63`, as
every Go slice length is) on `P ≥ 1` pages, every page reporting the total `N`,
every page but the last giving a continuation cursor, and, when there is more
than one page, the last page holding at least one validator.  Then, with fuel
for `P` iterations or more, `getValidatorList` issues exactly `P` queries, the
first without a cursor and each later one with the cursor of the page before,
and the response it serializes, answers and caches holds exactly the `N`
validator records of the pages, each once and in the order served. -/
theorem C1_pagination (env : Env) (fuel : Nat) (cache : Cache) (key chainID : String)
    (pages : List Page) (hne : pages ≠ [])
    (hconn : env.NewRPCClient (env.Sprintf env.Config.ChainHost chainID) = true)
    (hserve : servesPages env (env.Sprintf env.Config.ChainHost chainID) 0 firstRequest pages)
    (htotal : ∀ p ∈ pages, p.total = (allValidators pages).length)
    (hN : (allValidators pages).length < 2 ^ 63)
    (hcursor : ∀ p ∈ pages.dropLast, p.nextKey ≠ [])
    (hlast : 2 ≤ pages.length → (pages.getLast hne).validators ≠ [])
    (hfuel : pages.length ≤ fuel) :
    (getValidatorList env fuel cache key chainID).calls =
        Call.NewRPCClient (env.Sprintf env.Config.ChainHost chainID) ::
          expectedQueries (env.Sprintf env.Config.ChainHost chainID) firstRequest pages ∧
      (expectedQueries (env.Sprintf env.Config.ChainHost chainID) firstRequest pages).length =
        pages.length ∧
      (accumulate emptyResponse pages).Validators = allValidators pages ∧
      ∀ respData, env.ProtoMarshalJSON (accumulate emptyResponse pages) = some respData →
        (getValidatorList env fuel cache key chainID).outcome =
            Outcome.jsonBlob StatusOK respData ∧
          (getValidatorList env fuel cache key chainID).cache =
            Cache.SetWithTTL cache key respData 1 (1 * Hour) := by
  cases pages with
  | nil => exact absurd rfl hne
  | cons p rest =>
      have hloop := validatorLoop_pages env (env.Sprintf env.Config.ChainHost chainID)
        (allValidators (p :: rest)).length hN rest p fuel 0 emptyResponse
        [Call.NewRPCClient (env.Sprintf env.Config.ChainHost chainID)]
        (by simpa using hfuel) htotal (Or.inl rfl) rfl (by simp [emptyResponse]) hcursor
        (fun h => by
          have := hlast (by
            cases rest with
            | nil => exact absurd rfl h
            | cons q rest1 => simp)
          rw [List.getLast_cons h] at this
          exact this)
        hserve
      have hnext : nextRequest emptyResponse = firstRequest := rfl
      rw [hnext] at hloop
      have hloop2 : validatorLoop env (env.Sprintf env.Config.ChainHost chainID) fuel 0
          { Validators := [], Pagination := none }
          [Call.NewRPCClient (env.Sprintf env.Config.ChainHost chainID)] = _ := hloop
      refine ⟨?_, expectedQueries_length _ _ _, ?_, ?_⟩
      · simp only [getValidatorList, hconn, if_true, hloop2]
        cases env.ProtoMarshalJSON (accumulate emptyResponse (p :: rest)) <;> simp
      · rw [accumulate_validators]
        simp [emptyResponse]
      · intro respData hm
        simp only [getValidatorList, hconn, if_true, hloop2, hm]
        simp

/-- A witness of `C1_pagination`: three validators on two pages are fetched
with two queries and cached in the order served. -/
theorem C1_pagination_witness :
    (getValidatorList twoPagesEnv 2 [] (validatorListKey "c") "c").calls =
        Call.NewRPCClient (twoPagesEnv.Sprintf twoPagesEnv.Config.ChainHost "c") ::
          expectedQueries (twoPagesEnv.Sprintf twoPagesEnv.Config.ChainHost "c") firstRequest
            twoPages ∧
      (expectedQueries (twoPagesEnv.Sprintf twoPagesEnv.Config.ChainHost "c") firstRequest
          twoPages).length = twoPages.length ∧
      (accumulate emptyResponse twoPages).Validators = allValidators twoPages ∧
      ∀ respData, twoPagesEnv.ProtoMarshalJSON (accumulate emptyResponse twoPages) = some respData →
        (getValidatorList twoPagesEnv 2 [] (validatorListKey "c") "c").outcome =
            Outcome.jsonBlob StatusOK respData ∧
          (getValidatorList twoPagesEnv 2 [] (validatorListKey "c") "c").cache =
            Cache.SetWithTTL [] (validatorListKey "c") respData 1 (1 * Hour) :=
  C1_pagination twoPagesEnv 2 [] (validatorListKey "c") "c" twoPages (by decide) (by decide)
    ⟨rfl, rfl, trivial⟩ (by decide) (by decide) (by decide) (fun _ => by decide) (by decide)

/-- C8, at the failing input: the upstream answers the first query with no
records and the total `2 ^ 63`.  The conversion `int(Total)` is then negative,
the loop condition is false, and `getValidatorList` returns successfully after
this one query, caching a response that holds 0 validators while its reported
total is 9223372036854775808. -/
theorem C8_stops_below_total :
    validatorLoop hugeTotalEnv "rpc.c" 5 0 emptyResponse [] =
        (Except.ok { Validators := [],
                     Pagination := some { NextKey := [], Total := 9223372036854775808 } },
          [Call.ABCIQuery "rpc.c" validatorsPath (Request.validators firstRequest)]) ∧
      intOfUint64 9223372036854775808 = -9223372036854775808 ∧
      getValidatorList hugeTotalEnv 5 [] (validatorListKey "c") "c" =
        { outcome := Outcome.jsonBlob StatusOK [],
          cache := [{ key := "validatorList.c", value := [], cost := 1, ttl := 3600000000000 }],
          calls := [Call.NewRPCClient "rpc.c",
            Call.ABCIQuery "rpc.c" validatorsPath (Request.validators firstRequest)] } := by
  refine ⟨rfl, by decide, by decide⟩

/-! ## Failure at every stage -/

/-- While the upstream answers and the loop condition holds, the loop goes on:
after the responses `ws` it is in the state accumulated from them. -/
theorem validatorLoop_prefix (env : Env) (host : String) (fuel : Nat) :
    ∀ (ws : List (List Field)) (i : Nat) (r : QueryValidatorsResponse) (calls : List Call),
      servesFields env host i r ws →
      validatorLoop env host (fuel + ws.length) i r calls =
        validatorLoop env host fuel (i + ws.length) (unmarshalAll r ws)
          (calls ++ queriesFrom host r ws)
  | [], i, r, calls, _ => by simp [unmarshalAll, queriesFrom]
  | w :: ws, i, r, calls, h => by
      simp only [servesFields] at h
      obtain ⟨hcond, hq, hrest⟩ := h
      have hstep : validatorLoop env host (fuel + ws.length + 1) i r calls =
          validatorLoop env host (fuel + ws.length) (i + 1) (QueryValidatorsResponse.Unmarshal r w)
            (calls ++ [Call.ABCIQuery host validatorsPath (Request.validators (nextRequest r))]) := by
        simp only [validatorLoop, hcond, if_true]
        cases hv : env.ABCIQuery host i validatorsPath (Request.validators (nextRequest r)) with
        | none => rw [hv] at hq; simp at hq
        | some value =>
            rw [hv] at hq
            have hq2 : env.decodeValidators value = some w := hq
            simp only [hq2]
      have hlen : fuel + (w :: ws).length = fuel + ws.length + 1 := by simp; omega
      rw [hlen, hstep, validatorLoop_prefix env host fuel ws (i + 1) _ _ hrest]
      have hi : i + 1 + ws.length = i + (w :: ws).length := by simp; omega
      rw [hi]
      simp [unmarshalAll, queriesFrom]

/-- While the locked-token fetches succeed within the range of `sdkmath.Int`,
the loop over the vesting accounts goes on with the running sum. -/
theorem lockedLoop_prefix (env : Env) (rest : List String) :
    ∀ (pre : List String) (locked : List Int) (i : Nat) (acc : Int) (calls : List Call),
      servesLocked env i pre locked → sumsInRange acc locked →
      lockedLoop env (pre ++ rest) i acc calls =
        lockedLoop env rest (i + pre.length) (acc + locked.sum)
          (calls ++ pre.map (Call.getVestingAccountLocked (accountsURL env)))
  | [], [], i, acc, calls, _, _ => by simp
  | [], _ :: _, _, _, _, h, _ => by simp [servesLocked] at h
  | _ :: _, [], _, _, _, h, _ => by simp [servesLocked] at h
  | address :: pre, x :: xs, i, acc, calls, h, hs => by
      simp only [servesLocked] at h
      simp only [sumsInRange] at hs
      have hstep : lockedLoop env (address :: pre ++ rest) i acc calls =
          lockedLoop env (pre ++ rest) (i + 1) (acc + x)
            (calls ++ [Call.getVestingAccountLocked (accountsURL env) address]) := by
        show lockedLoop env (address :: (pre ++ rest)) i acc calls = _
        simp only [lockedLoop, h.1, sdkAdd, hs.1, if_true]
      rw [hstep, lockedLoop_prefix env rest pre xs (i + 1) (acc + x) _ h.2 hs.2]
      have hi : i + 1 + pre.length = i + (address :: pre).length := by simp; omega
      rw [hi]
      simp [Int.add_assoc]

/-- The stages of `getValidatorList` after the connection, at any page: a failed
query, a failed decode, and a failed encode of the final response. -/
theorem getValidatorList_stages (env : Env) (cache : Cache) (key chainID : String)
    (ws : List (List Field)) (n : Nat)
    (hconn : env.NewRPCClient (env.Sprintf env.Config.ChainHost chainID) = true)
    (hserve : servesFields env (env.Sprintf env.Config.ChainHost chainID) 0 emptyResponse ws) :
    (loopCond (unmarshalAll emptyResponse ws) = true →
        (env.ABCIQuery (env.Sprintf env.Config.ChainHost chainID) ws.length validatorsPath
            (Request.validators (nextRequest (unmarshalAll emptyResponse ws))) = none →
          failsWith (getValidatorList env (n + 1 + ws.length) cache key chainID) cache
            SvcError.ErrABCIQuery) ∧
        (∀ value,
          env.ABCIQuery (env.Sprintf env.Config.ChainHost chainID) ws.length validatorsPath
            (Request.validators (nextRequest (unmarshalAll emptyResponse ws))) = some value →
          env.decodeValidators value = none →
          failsWith (getValidatorList env (n + 1 + ws.length) cache key chainID) cache
            SvcError.ErrUnmarshalResponse)) ∧
      (loopCond (unmarshalAll emptyResponse ws) = false →
        env.ProtoMarshalJSON (unmarshalAll emptyResponse ws) = none →
        failsWith (getValidatorList env (n + ws.length) cache key chainID) cache
          SvcError.ErrMarshalResponse) := by
  have hpre : ∀ fuel, validatorLoop env (env.Sprintf env.Config.ChainHost chainID)
      (fuel + ws.length) 0 { Validators := [], Pagination := none }
      [Call.NewRPCClient (env.Sprintf env.Config.ChainHost chainID)] =
      validatorLoop env (env.Sprintf env.Config.ChainHost chainID) fuel (0 + ws.length)
        (unmarshalAll emptyResponse ws)
        ([Call.NewRPCClient (env.Sprintf env.Config.ChainHost chainID)] ++
          queriesFrom (env.Sprintf env.Config.ChainHost chainID) emptyResponse ws) :=
    fun fuel => validatorLoop_prefix env _ fuel ws 0 emptyResponse _ hserve
  refine ⟨fun hcond => ⟨?_, ?_⟩, ?_⟩
  · intro hq
    simp only [failsWith, getValidatorList, hconn, if_true, hpre (n + 1), Nat.zero_add]
    simp [validatorLoop, hcond, hq]
  · intro value hq hd
    simp only [failsWith, getValidatorList, hconn, if_true, hpre (n + 1), Nat.zero_add]
    simp [validatorLoop, hcond, hq, hd]
  · intro hcond hm
    simp only [failsWith, getValidatorList, hconn, if_true, hpre n, Nat.zero_add]
    rw [validatorLoop_done env _ n _ _ _ hcond]
    simp [hm]

/-- The four stages of `getExistingDelegations`. -/
theorem getExistingDelegations_stages (env : Env) (cache : Cache) (key chainID address : String) :
    (env.NewRPCClient (env.Sprintf env.Config.ChainHost chainID) = false →
        failsWith (getExistingDelegations env cache key chainID address) cache
          SvcError.ErrRPCClientConnection) ∧
      (env.NewRPCClient (env.Sprintf env.Config.ChainHost chainID) = true →
        (env.ABCIQuery (env.Sprintf env.Config.ChainHost chainID) 0 delegationsPath
            (Request.delegatorDelegations address) = none →
          failsWith (getExistingDelegations env cache key chainID address) cache
            SvcError.ErrABCIQuery) ∧
        (∀ value,
          env.ABCIQuery (env.Sprintf env.Config.ChainHost chainID) 0 delegationsPath
            (Request.delegatorDelegations address) = some value →
          (env.UnmarshalDelegations value = none →
            failsWith (getExistingDelegations env cache key chainID address) cache
              SvcError.ErrUnmarshalResponse) ∧
          (∀ queryResponse, env.UnmarshalDelegations value = some queryResponse →
            env.MarshalJSONDelegations queryResponse = none →
            failsWith (getExistingDelegations env cache key chainID address) cache
              SvcError.ErrMarshalResponse))) := by
  refine ⟨fun hc => ?_, fun hc => ⟨fun hq => ?_, fun value hq => ⟨fun hd => ?_, fun r hd hm => ?_⟩⟩⟩
  · simp [failsWith, getExistingDelegations, hc]
  · simp [failsWith, getExistingDelegations, hc, hq]
  · simp [failsWith, getExistingDelegations, hc, hq, hd]
  · simp [failsWith, getExistingDelegations, hc, hq, hd, hm]

/-- The four stages of `getZones`. -/
theorem getZones_stages (env : Env) (cache : Cache) (key : String) :
    (env.NewRPCClient env.Config.QuickHost = false →
        failsWith (getZones env cache key) cache SvcError.ErrRPCClientConnection) ∧
      (env.NewRPCClient env.Config.QuickHost = true →
        (env.ABCIQuery env.Config.QuickHost 0 zonesPath Request.zonesInfo = none →
          failsWith (getZones env cache key) cache SvcError.ErrABCIQuery) ∧
        (∀ value,
          env.ABCIQuery env.Config.QuickHost 0 zonesPath Request.zonesInfo = some value →
          (env.UnmarshalZones value = none →
            failsWith (getZones env cache key) cache SvcError.ErrUnmarshalResponse) ∧
          (∀ queryResponse, env.UnmarshalZones value = some queryResponse →
            env.MarshalJSONZones queryResponse = none →
            failsWith (getZones env cache key) cache SvcError.ErrMarshalResponse))) := by
  refine ⟨fun hc => ?_, fun hc => ⟨fun hq => ?_, fun value hq => ⟨fun hd => ?_, fun r hd hm => ?_⟩⟩⟩
  · simp [failsWith, getZones, hc]
  · simp [failsWith, getZones, hc, hq]
  · simp [failsWith, getZones, hc, hq, hd]
  · simp [failsWith, getZones, hc, hq, hd, hm]

/-- The stages of `getAPR`: the fetch for any one chain, and the encode. -/
theorem getAPR_stages (env : Env) (cache : Cache) (key : String) :
    (∀ (j : Nat) (chain : String), env.Config.Chains[j]? = some chain →
        env.getAPRquery j (env.Config.APRURL ++ "/") chain = none →
        failsWith (getAPR env cache key) cache SvcError.ErrUnableToGetAPR) ∧
      (∀ records : List ChainAPR, servesAPR env 0 env.Config.Chains records →
        env.jsonMarshalAPR { Chains := records } = none →
        failsWith (getAPR env cache key) cache SvcError.ErrMarshalResponse) := by
  constructor
  · intro j chain hj hf
    have h := aprLoop_failed env env.Config.Chains 0 { Chains := [] } [] j chain hj
      (by rw [Nat.zero_add]; exact hf)
    simp only [failsWith, getAPR]
    cases hl : aprLoop env env.Config.Chains 0 { Chains := [] } [] with
    | mk fst snd =>
        rw [hl] at h
        simp only at h
        subst h
        simp
  · intro records h hm
    simp [failsWith, getAPR, aprLoop_served env _ _ 0 { Chains := [] } [] h, hm]

/-- The stages of `getTotalSupply`: the fetch and the encode. -/
theorem getTotalSupply_stages (env : Env) (cache : Cache) (key : String) :
    (env.getTotalSupply (supplyURL env) = none →
        failsWith (getTotalSupply env cache key) cache SvcError.ErrUnableToGetTotalSupply) ∧
      (∀ T : Int, env.getTotalSupply (supplyURL env) = some T → fitsInt64 T →
        marshalScaled env T = none →
        failsWith (getTotalSupply env cache key) cache SvcError.ErrMarshalResponse) := by
  constructor
  · intro h
    simp [failsWith, getTotalSupply, h]
  · intro T hT hfit hm
    simp [failsWith, getTotalSupply, hT, sdkInt64_eq, hfit, hm]

/-- The stages of `getCirculatingSupply`: the locked-token fetch for any one
vesting account, the total-supply fetch, the community-pool fetch and the
encode. -/
theorem getCirculatingSupply_stages (env : Env) (cache : Cache) (key : String) :
    (∀ (pre : List String) (address : String) (post : List String) (locked : List Int),
        env.VestingAccounts = pre ++ address :: post →
        servesLocked env 0 pre locked → sumsInRange 0 locked →
        env.getVestingAccountLocked pre.length (accountsURL env) address = none →
        failsWith (getCirculatingSupply env cache key) cache
          SvcError.ErrUnableToGetLockedTokens) ∧
      (∀ locked : List Int, servesLocked env 0 env.VestingAccounts locked →
        sumsInRange 0 locked →
        (env.getTotalSupply (supplyURL env) = none →
          failsWith (getCirculatingSupply env cache key) cache
            SvcError.ErrUnableToGetTotalSupply) ∧
        (∀ T : Int, env.getTotalSupply (supplyURL env) = some T →
          (env.getCommunityPool (communityPoolURL env) = none →
            failsWith (getCirculatingSupply env cache key) cache
              SvcError.ErrUnableToGetCommunityPool) ∧
          (∀ C x : Int, env.getCommunityPool (communityPoolURL env) = some C →
            circulatingInt64 T locked.sum C = some x →
            marshalScaled env x = none →
            failsWith (getCirculatingSupply env cache key) cache
              SvcError.ErrMarshalResponse))) := by
  constructor
  · intro pre address post locked hacc hl hs hf
    have h := lockedLoop_prefix env (address :: post) pre locked 0 0 [] hl hs
    simp only [failsWith, getCirculatingSupply, hacc, h, Nat.zero_add]
    simp [lockedLoop, hf]
  · intro locked hl hs
    have he : lockedLoop env env.VestingAccounts 0 0 [] =
        (Except.ok (0 + locked.sum),
          [] ++ env.VestingAccounts.map (Call.getVestingAccountLocked (accountsURL env))) := by
      rcases lockedLoop_served env env.VestingAccounts locked 0 0 [] hl with ⟨_, he⟩ | ⟨hn, _⟩
      · exact he
      · exact absurd hs hn
    refine ⟨fun hT => ?_, fun T hT => ⟨fun hC => ?_, fun C x hC hx hm => ?_⟩⟩
    · simp [failsWith, getCirculatingSupply, he, hT]
    · simp [failsWith, getCirculatingSupply, he, hT, hC]
    · simp [failsWith, getCirculatingSupply, he, hT, hC, hx, hm]

/-- C3: for each of the six resolvers a failure at any stage makes the handler
return the error of that stage and leave the cache exactly as it was.  The
stages are: the connection (`getValidatorList`, `getExistingDelegations`,
`getZones`); the query and the decode, for `getValidatorList` at any page, that
is after any number of answered pages; the encode of the response (every
resolver); the fetch for any one chain (`getAPR`); the locked-token fetch for
any one vesting account, the total-supply fetch and the community-pool fetch
(`getTotalSupply`, `getCirculatingSupply`).  More generally every resolution
that does not answer with a body leaves the cache unchanged, and it ends with a
returned error unless it is a supply handler that panics in its arithmetic or
the pagination loop has not finished.  In particular, when the locked-token
fetches and the total-supply fetch of `getCirculatingSupply` have succeeded and
the community-pool fetch fails, the handler returns
`ErrUnableToGetCommunityPool` after these fetches and the cache is unchanged,
so that neither `circulating_supply` nor `total_supply` is written. -/
theorem C3_failure_leaves_cache (env : Env) (fuel : Nat) (cache : Cache) (key : String)
    (route : Route) :
    ((Route.resolve env fuel cache key route).outcome.isResponse = false →
        (Route.resolve env fuel cache key route).cache = cache) ∧
      ((Route.resolve env fuel cache key route).outcome.isResponse = true ∨
          (∃ e, (Route.resolve env fuel cache key route).outcome = Outcome.error e) ∨
          ((Route.resolve env fuel cache key route).outcome = Outcome.panicked ∧
            (route = Route.total_supply ∨ route = Route.circulating_supply)) ∨
          ((Route.resolve env fuel cache key route).outcome = Outcome.running ∧
            ∃ chainID, route = Route.validatorList chainID)) ∧
        (∀ (host : String) (n i : Nat) (r : QueryValidatorsResponse) (calls : List Call),
          loopCond r = true →
          (env.ABCIQuery host i validatorsPath (Request.validators (nextRequest r)) = none →
            validatorLoop env host (n + 1) i r calls =
              (Except.error (Outcome.error SvcError.ErrABCIQuery),
                calls ++ [Call.ABCIQuery host validatorsPath (Request.validators (nextRequest r))])) ∧
          (∀ value,
            env.ABCIQuery host i validatorsPath (Request.validators (nextRequest r)) = some value →
            env.decodeValidators value = none →
            validatorLoop env host (n + 1) i r calls =
              (Except.error (Outcome.error SvcError.ErrUnmarshalResponse),
                calls ++ [Call.ABCIQuery host validatorsPath (Request.validators (nextRequest r))]))) ∧
        (∀ (chainID : String) (o : Outcome) (calls1 : List Call),
          env.NewRPCClient (env.Sprintf env.Config.ChainHost chainID) = true →
          validatorLoop env (env.Sprintf env.Config.ChainHost chainID) fuel 0 emptyResponse
              [Call.NewRPCClient (env.Sprintf env.Config.ChainHost chainID)] =
            (Except.error o, calls1) →
          getValidatorList env fuel cache key chainID =
            { outcome := o, cache := cache, calls := calls1 }) ∧
        (∀ (T : Int) (locked : List Int),
          servesLocked env 0 env.VestingAccounts locked →
          sumsInRange 0 locked →
          env.getTotalSupply (supplyURL env) = some T →
          env.getCommunityPool (communityPoolURL env) = none →
          getCirculatingSupply env cache key =
              { outcome := Outcome.error SvcError.ErrUnableToGetCommunityPool, cache := cache,
                calls := env.VestingAccounts.map (Call.getVestingAccountLocked (accountsURL env))
                  ++ [Call.getTotalSupply (supplyURL env),
                      Call.getCommunityPool (communityPoolURL env)] } ∧
            Cache.Get (getCirculatingSupply env cache key).cache circulatingSupplyKey =
              Cache.Get cache circulatingSupplyKey ∧
            Cache.Get (getCirculatingSupply env cache key).cache totalSupplyKey =
              Cache.Get cache totalSupplyKey) ∧
        (∀ chainID : String,
          env.NewRPCClient (env.Sprintf env.Config.ChainHost chainID) = false →
          failsWith (getValidatorList env fuel cache key chainID) cache
            SvcError.ErrRPCClientConnection) ∧
        (∀ (chainID : String) (ws : List (List Field)) (n : Nat),
          env.NewRPCClient (env.Sprintf env.Config.ChainHost chainID) = true →
          servesFields env (env.Sprintf env.Config.ChainHost chainID) 0 emptyResponse ws →
          (loopCond (unmarshalAll emptyResponse ws) = true →
              (env.ABCIQuery (env.Sprintf env.Config.ChainHost chainID) ws.length validatorsPath
                  (Request.validators (nextRequest (unmarshalAll emptyResponse ws))) = none →
                failsWith (getValidatorList env (n + 1 + ws.length) cache key chainID) cache
                  SvcError.ErrABCIQuery) ∧
              (∀ value,
                env.ABCIQuery (env.Sprintf env.Config.ChainHost chainID) ws.length validatorsPath
                  (Request.validators (nextRequest (unmarshalAll emptyResponse ws))) = some value →
                env.decodeValidators value = none →
                failsWith (getValidatorList env (n + 1 + ws.length) cache key chainID) cache
                  SvcError.ErrUnmarshalResponse)) ∧
            (loopCond (unmarshalAll emptyResponse ws) = false →
              env.ProtoMarshalJSON (unmarshalAll emptyResponse ws) = none →
              failsWith (getValidatorList env (n + ws.length) cache key chainID) cache
                SvcError.ErrMarshalResponse)) ∧
        (∀ chainID address : String,
          (env.NewRPCClient (env.Sprintf env.Config.ChainHost chainID) = false →
              failsWith (getExistingDelegations env cache key chainID address) cache
                SvcError.ErrRPCClientConnection) ∧
            (env.NewRPCClient (env.Sprintf env.Config.ChainHost chainID) = true →
              (env.ABCIQuery (env.Sprintf env.Config.ChainHost chainID) 0 delegationsPath
                  (Request.delegatorDelegations address) = none →
                failsWith (getExistingDelegations env cache key chainID address) cache
                  SvcError.ErrABCIQuery) ∧
              (∀ value,
                env.ABCIQuery (env.Sprintf env.Config.ChainHost chainID) 0 delegationsPath
                  (Request.delegatorDelegations address) = some value →
                (env.UnmarshalDelegations value = none →
                  failsWith (getExistingDelegations env cache key chainID address) cache
                    SvcError.ErrUnmarshalResponse) ∧
                (∀ queryResponse, env.UnmarshalDelegations value = some queryResponse →
                  env.MarshalJSONDelegations queryResponse = none →
                  failsWith (getExistingDelegations env cache key chainID address) cache
                    SvcError.ErrMarshalResponse)))) ∧
      ((env.NewRPCClient env.Config.QuickHost = false →
          failsWith (getZones env cache key) cache SvcError.ErrRPCClientConnection) ∧
        (env.NewRPCClient env.Config.QuickHost = true →
          (env.ABCIQuery env.Config.QuickHost 0 zonesPath Request.zonesInfo = none →
            failsWith (getZones env cache key) cache SvcError.ErrABCIQuery) ∧
          (∀ value,
            env.ABCIQuery env.Config.QuickHost 0 zonesPath Request.zonesInfo = some value →
            (env.UnmarshalZones value = none →
              failsWith (getZones env cache key) cache SvcError.ErrUnmarshalResponse) ∧
            (∀ queryResponse, env.UnmarshalZones value = some queryResponse →
              env.MarshalJSONZones queryResponse = none →
              failsWith (getZones env cache key) cache SvcError.ErrMarshalResponse)))) ∧
      ((∀ (j : Nat) (chain : String), env.Config.Chains[j]? = some chain →
          env.getAPRquery j (env.Config.APRURL ++ "/") chain = none →
          failsWith (getAPR env cache key) cache SvcError.ErrUnableToGetAPR) ∧
        (∀ records : List ChainAPR, servesAPR env 0 env.Config.Chains records →
          env.jsonMarshalAPR { Chains := records } = none →
          failsWith (getAPR env cache key) cache SvcError.ErrMarshalResponse)) ∧
      ((env.getTotalSupply (supplyURL env) = none →
          failsWith (getTotalSupply env cache key) cache SvcError.ErrUnableToGetTotalSupply) ∧
        (∀ T : Int, env.getTotalSupply (supplyURL env) = some T → fitsInt64 T →
          marshalScaled env T = none →
          failsWith (getTotalSupply env cache key) cache SvcError.ErrMarshalResponse)) ∧
      ((∀ (pre : List String) (address : String) (post : List String) (locked : List Int),
          env.VestingAccounts = pre ++ address :: post →
          servesLocked env 0 pre locked → sumsInRange 0 locked →
          env.getVestingAccountLocked pre.length (accountsURL env) address = none →
          failsWith (getCirculatingSupply env cache key) cache
            SvcError.ErrUnableToGetLockedTokens) ∧
        (∀ locked : List Int, servesLocked env 0 env.VestingAccounts locked →
          sumsInRange 0 locked →
          (env.getTotalSupply (supplyURL env) = none →
            failsWith (getCirculatingSupply env cache key) cache
              SvcError.ErrUnableToGetTotalSupply) ∧
          (∀ T : Int, env.getTotalSupply (supplyURL env) = some T →
            (env.getCommunityPool (communityPoolURL env) = none →
              failsWith (getCirculatingSupply env cache key) cache
                SvcError.ErrUnableToGetCommunityPool) ∧
            (∀ C x : Int, env.getCommunityPool (communityPoolURL env) = some C →
              circulatingInt64 T locked.sum C = some x →
              marshalScaled env x = none →
              failsWith (getCirculatingSupply env cache key) cache
                SvcError.ErrMarshalResponse)))) := by
  refine ⟨?_, resolve_outcome_kind env fuel cache key route, ?_, ?_, ?_,
    fun chainID hc => by simp [failsWith, getValidatorList, hc],
    fun chainID ws n hconn hserve => getValidatorList_stages env cache key chainID ws n hconn hserve,
    fun chainID address => getExistingDelegations_stages env cache key chainID address,
    getZones_stages env cache key, getAPR_stages env cache key,
    getTotalSupply_stages env cache key, getCirculatingSupply_stages env cache key⟩
  · intro h
    rcases resolve_cases env fuel cache key route with ⟨_, h2⟩ | ⟨b, h1, _⟩
    · exact h2
    · rw [h1] at h
      simp [Outcome.isResponse] at h
  · intro host n i r calls hcond
    constructor
    · intro hq
      simp [validatorLoop, hcond, hq]
    · intro value hq hd
      simp [validatorLoop, hcond, hq, hd]
  · intro chainID o calls1 hconn hloop
    have hloop2 : validatorLoop env (env.Sprintf env.Config.ChainHost chainID) fuel 0
        { Validators := [], Pagination := none }
        [Call.NewRPCClient (env.Sprintf env.Config.ChainHost chainID)] = _ := hloop
    simp only [getValidatorList, hconn, if_true, hloop2]
  · intro T locked hl hsum hT hC
    have he : getCirculatingSupply env cache key =
        { outcome := Outcome.error SvcError.ErrUnableToGetCommunityPool, cache := cache,
          calls := env.VestingAccounts.map (Call.getVestingAccountLocked (accountsURL env))
            ++ [Call.getTotalSupply (supplyURL env),
                Call.getCommunityPool (communityPoolURL env)] } := by
      rcases lockedLoop_served env env.VestingAccounts locked 0 0 [] hl with
        ⟨_, he⟩ | ⟨hs, _⟩
      · simp [getCirculatingSupply, he, hT, hC]
      · exact absurd hsum hs
    refine ⟨he, ?_, ?_⟩ <;> rw [he]

/-- A witness of `C3_failure_leaves_cache`: with the community pool endpoint
down, `getCirculatingSupply` fails after three successful fetches and the cache,
which held one entry, is as before; and `getValidatorList` for a chain whose
node is down returns `ErrRPCClientConnection`. -/
theorem C3_failure_leaves_cache_witness :
    ((Route.resolve poolDownEnv 0 [{ key := "zones", value := [1], cost := 1, ttl := Minute }]
          circulatingSupplyKey Route.circulating_supply).outcome.isResponse = false ∧
        (Route.resolve poolDownEnv 0 [{ key := "zones", value := [1], cost := 1, ttl := Minute }]
          circulatingSupplyKey Route.circulating_supply).cache =
          [{ key := "zones", value := [1], cost := 1, ttl := Minute }]) ∧
      (getCirculatingSupply poolDownEnv [] circulatingSupplyKey =
          { outcome := Outcome.error SvcError.ErrUnableToGetCommunityPool, cache := [],
            calls := poolDownEnv.VestingAccounts.map
                (Call.getVestingAccountLocked (accountsURL poolDownEnv))
              ++ [Call.getTotalSupply (supplyURL poolDownEnv),
                  Call.getCommunityPool (communityPoolURL poolDownEnv)] } ∧
        Cache.Get (getCirculatingSupply poolDownEnv [] circulatingSupplyKey).cache
            circulatingSupplyKey = Cache.Get [] circulatingSupplyKey ∧
        Cache.Get (getCirculatingSupply poolDownEnv [] circulatingSupplyKey).cache
            totalSupplyKey = Cache.Get [] totalSupplyKey) ∧
      failsWith (getValidatorList poolDownEnv 0 [] (validatorListKey "down") "down") []
        SvcError.ErrRPCClientConnection :=
  ⟨⟨by decide,
      (C3_failure_leaves_cache poolDownEnv 0
        [{ key := "zones", value := [1], cost := 1, ttl := Minute }]
        circulatingSupplyKey Route.circulating_supply).1 (by decide)⟩,
    (C3_failure_leaves_cache poolDownEnv 0 [] circulatingSupplyKey
        Route.circulating_supply).2.2.2.2.1
      1000000000000000 [60000000000000, 40000000000000] ⟨rfl, rfl, trivial⟩
      ⟨by decide, by decide, trivial⟩ rfl rfl,
    (C3_failure_leaves_cache poolDownEnv 0 [] (validatorListKey "down")
        Route.circulating_supply).2.2.2.2.2.1 "down" (by decide)⟩

end Evince
